import Mathlib

/-!
Verification of the device-residency mirror builder (`copyDomainDevice`,
`MC_Domain.hh`) and of the bit-field-extraction verification harness
(`math_bfe.cpp`) of the SYCLomatic-test repository.

The C++ code is shallowly embedded:
* host structures (`MC_Domain`, `MC_Mesh_Domain`, cell records) become Lean
  structures whose variable-length pointed-to arrays are inlined as lists;
* the device (target) address space becomes an explicit heap: a list of
  blocks, a block being `none` (allocated, not yet populated) or
  `some vals` (populated with typed contents);
* every `safeCall(DPCT_CHECK_ERROR(...))`-checked operation (device
  allocation, queue memcpy) is one fallible step of a state monad `BuildM`;
  a failure oracle `ok : Nat -> Bool` decides whether the n-th checked
  operation succeeds, and the first failure aborts the computation
  (`safeCall` is not part of the sources under verification; it is modelled
  from the spec as terminating the build on the first failed call);
* doubles and other POD payloads are carried as opaque bit patterns
  (`Nat`), since the builder only copies them verbatim (bit-exactly).

Every checked operation is also recorded in an event trace, which lets us
state the bottom-up ordering invariant (child buffers are populated before
any parent structure embedding their addresses is copied across).
-/

/-- Bit pattern of a C `double`; the builder copies doubles verbatim, so
only their identity matters. -/
abbrev DoubleBits := Nat

/-- `MC_Vector`: a 3D position, three doubles.  Modelled from the spec:
the node record ("Node (3D position)") is not among the sources. -/
structure MC_Vector where
  x : DoubleBits
  y : DoubleBits
  z : DoubleBits
deriving DecidableEq, Repr

/-- `MC_Facet_Adjacency`: a facet-adjacency POD record, copied verbatim by
the builder; modelled from the spec as its opaque bit content. -/
abbrev MC_Facet_Adjacency := Nat

/-- `MC_General_Plane`: a geometric plane descriptor POD record, copied
verbatim; modelled from the spec as its opaque bit content. -/
abbrev MC_General_Plane := Nat

/-- Host `MC_Cell_State`.  Modelled from the spec: the record holds a
cross-section array of one double per energy group (`_total`, a pointer on
the host, inlined here as the pointed-to list) plus further POD fields that
the builder copies verbatim (collapsed into `rest`). -/
structure MC_Cell_State where
  _total : List DoubleBits
  rest : Nat
deriving DecidableEq, Repr

/-- Host `MC_Facet_Adjacency_Cell`: per-cell connectivity.  Modelled from
the spec: a declared point count and facet count together with the two
variable-length arrays (inlined). -/
structure MC_Facet_Adjacency_Cell where
  num_points : Nat
  num_facets : Nat
  _point : List Int
  _facet : List MC_Facet_Adjacency
deriving DecidableEq, Repr

/-- Host `MC_Facet_Geometry_Cell`: per-cell geometry, a declared size and
the variable-length plane array (inlined). -/
structure MC_Facet_Geometry_Cell where
  _size : Nat
  _facet : List MC_General_Plane
deriving DecidableEq, Repr

/-- Host `MC_Mesh_Domain` (MC_Domain.hh lines 68-95); the bulk-storage
members are opaque to the builder and collapsed into `bulkStorage`. -/
structure MC_Mesh_Domain where
  _domainGid : Int
  _nbrDomainGid : List Int
  _nbrRank : List Int
  _node : List MC_Vector
  _cellConnectivity : List MC_Facet_Adjacency_Cell
  _cellGeometry : List MC_Facet_Geometry_Cell
  bulkStorage : Nat
deriving DecidableEq, Repr

/-- Host `MC_Domain` (MC_Domain.hh lines 102-123); the cached
cross-section bulk storage is opaque to the builder. -/
structure MC_Domain where
  domainIndex : Int
  global_domain : Int
  cell_state : List MC_Cell_State
  cachedCrossSectionStorage : Nat
  mesh : MC_Mesh_Domain
deriving DecidableEq, Repr

/-- A pointer value as it can occur inside a staging structure: either a
device (target-space) address, or a host address left over from a verbatim
struct copy (its numeric value is never used, only overwritten). -/
inductive DPtr where
  | host : DPtr
  | dev : Nat → DPtr
deriving DecidableEq, Repr

/-- Staged / device-resident `MC_Cell_State`: same record, but `_total`
holds an address. -/
structure MC_Cell_State_dev where
  _total : DPtr
  rest : Nat
deriving DecidableEq, Repr

/-- Staged / device-resident `MC_Facet_Adjacency_Cell`. -/
structure MC_Facet_Adjacency_Cell_dev where
  num_points : Nat
  num_facets : Nat
  _point : DPtr
  _facet : DPtr
deriving DecidableEq, Repr

/-- Staged / device-resident `MC_Facet_Geometry_Cell`. -/
structure MC_Facet_Geometry_Cell_dev where
  _size : Nat
  _facet : DPtr
deriving DecidableEq, Repr

/-- `MC_Mesh_Domain_d` (MC_Domain.hh lines 125-143): addresses paired with
explicit length fields. -/
structure MC_Mesh_Domain_d where
  _domainGid : Int
  _nbrRank : DPtr
  _nbrRankSize : Nat
  _node : DPtr
  _nodeSize : Nat
  _cellConnectivity : DPtr
  _cellConnectivitySize : Nat
  _cellGeometry : DPtr
  _cellGeometrySize : Nat
deriving DecidableEq, Repr

/-- `MC_Domain_d` (MC_Domain.hh lines 150-163). -/
structure MC_Domain_d where
  domainIndex : Int
  global_domain : Int
  cell_state : DPtr
  cell_stateSize : Nat
  mesh : MC_Mesh_Domain_d
deriving DecidableEq, Repr

/-- Typed contents of one populated device block. -/
inductive BlockVals where
  | doubles (vs : List DoubleBits)
  | ints (vs : List Int)
  | vectors (vs : List MC_Vector)
  | facetAdjacencies (vs : List MC_Facet_Adjacency)
  | planes (vs : List MC_General_Plane)
  | cellStates (vs : List MC_Cell_State_dev)
  | connCells (vs : List MC_Facet_Adjacency_Cell_dev)
  | geomCells (vs : List MC_Facet_Geometry_Cell_dev)
  | domains (vs : List MC_Domain_d)
deriving DecidableEq, Repr

/-- The device heap: block address = list index; `none` = allocated but
not yet populated. -/
abbrev DevHeap := List (Option BlockVals)

/-- One checked operation, as recorded in the build trace. -/
inductive Event where
  | alloc (a : Nat) (size : Nat)
  | copyDev (a : Nat) (vs : BlockVals)
  | copyHost
deriving DecidableEq, Repr

/-- State of a build: the host domain model (read-only input resident in
host memory), the failure oracle for checked calls, the device heap, the
trace of performed checked operations, and the index of the next checked
operation. -/
structure BuildState where
  host : List MC_Domain
  ok : Nat → Bool
  heap : DevHeap
  trace : List Event
  counter : Nat

/-- The build monad: state plus abort-on-first-failure. -/
def BuildM (α : Type) : Type := BuildState → Option α × BuildState

def BuildM.pure {α : Type} (a : α) : BuildM α := fun s => (some a, s)

def BuildM.bind {α β : Type} (x : BuildM α) (f : α → BuildM β) : BuildM β :=
  fun s =>
    match x s with
    | (some a, s') => f a s'
    | (none, s') => (none, s')

instance : Monad BuildM where
  pure := BuildM.pure
  bind := BuildM.bind

@[simp] theorem BuildM.pure_apply {α : Type} (a : α) (s : BuildState) :
    (Pure.pure a : BuildM α) s = (some a, s) := rfl

@[simp] theorem BuildM.bind_apply {α β : Type} (x : BuildM α)
    (f : α → BuildM β) (s : BuildState) :
    (x >>= f) s =
      match x s with
      | (some a, s') => f a s'
      | (none, s') => (none, s') := rfl

/-- `sycl::malloc_device`: a checked target-space allocation of a block of
`n` elements; returns the fresh address. -/
def mallocDev (n : Nat) : BuildM Nat := fun s =>
  if s.ok s.counter then
    (some s.heap.length,
     { s with
        heap := s.heap ++ [none],
        trace := s.trace ++ [Event.alloc s.heap.length n],
        counter := s.counter + 1 })
  else (none, s)

/-- A checked queue `memcpy` into target-space block `a`, populating it
with `vs` (the source always copies exactly the block's extent). -/
def memcpyDev (a : Nat) (vs : BlockVals) : BuildM Unit := fun s =>
  if s.ok s.counter then
    (some (),
     { s with
        heap := s.heap.set a (some vs),
        trace := s.trace ++ [Event.copyDev a vs],
        counter := s.counter + 1 })
  else (none, s)

/-- A checked queue `memcpy` between two host buffers (MC_Domain.hh lines
182-186): no device-heap effect, but still a fallible checked call. -/
def memcpyHost : BuildM Unit := fun s =>
  if s.ok s.counter then
    (some (),
     { s with
        trace := s.trace ++ [Event.copyHost],
        counter := s.counter + 1 })
  else (none, s)

/-- Read the host domain model (the `domain` by-value argument of
`copyDomainDevice`); a pure read of host memory. -/
def getHostDomains : BuildM (List MC_Domain) := fun s => (some s.host, s)

/-- The staged cell-state array right after the bulk struct copy of
MC_Domain.hh lines 181-186: each host struct is copied verbatim, so each
staged `_total` still holds the (opaque) host address. -/
def stageCellState (c : MC_Cell_State) : MC_Cell_State_dev :=
  { _total := DPtr.host, rest := c.rest }

/-- The per-cell patch loop of MC_Domain.hh lines 188-204: for each cell,
allocate a target-space buffer of `numEnergyGroups` doubles, copy that
cell's cross-section array into it, and overwrite the staged struct's
`_total` with the new device address. -/
def patchCellStates (numEnergyGroups : Nat) :
    List MC_Cell_State → List MC_Cell_State_dev →
    BuildM (List MC_Cell_State_dev)
  | [], _ => Pure.pure []
  | _ :: _, [] => Pure.pure []
  | c :: cs, d :: ds => do
    let a ← mallocDev numEnergyGroups
    memcpyDev a (BlockVals.doubles (c._total.take numEnergyGroups))
    let rest ← patchCellStates numEnergyGroups cs ds
    Pure.pure ({ d with _total := DPtr.dev a } :: rest)

/-- The cell-connectivity staging loop of MC_Domain.hh lines 256-295: for
each cell, copy the point/facet counts, allocate and populate a device
buffer for the point-index array and one for the facet-adjacency array,
and record both device addresses in the staged record. -/
def buildConnCells :
    List MC_Facet_Adjacency_Cell → BuildM (List MC_Facet_Adjacency_Cell_dev)
  | [] => Pure.pure []
  | c :: cs => do
    let ap ← mallocDev c.num_points
    memcpyDev ap (BlockVals.ints (c._point.take c.num_points))
    let af ← mallocDev c.num_facets
    memcpyDev af (BlockVals.facetAdjacencies (c._facet.take c.num_facets))
    let rest ← buildConnCells cs
    Pure.pure
      ({ num_points := c.num_points, num_facets := c.num_facets,
         _point := DPtr.dev ap, _facet := DPtr.dev af } :: rest)

/-- The cell-geometry staging loop of MC_Domain.hh lines 312-332: for each
cell, copy the plane count, allocate and populate a device buffer for the
plane array, and record its device address in the staged record. -/
def buildGeomCells :
    List MC_Facet_Geometry_Cell → BuildM (List MC_Facet_Geometry_Cell_dev)
  | [] => Pure.pure []
  | c :: cs => do
    let a ← mallocDev c._size
    memcpyDev a (BlockVals.planes (c._facet.take c._size))
    let rest ← buildGeomCells cs
    Pure.pure ({ _size := c._size, _facet := DPtr.dev a } :: rest)

/-- The per-domain body of `copyDomainDevice` (MC_Domain.hh lines
172-350): produces the fully patched staging descriptor `domain_h[i]`. -/
def copyOneDomain (numEnergyGroups : Nat) (dom : MC_Domain) :
    BuildM MC_Domain_d := do
  memcpyHost
  let cell_state_h := dom.cell_state.map stageCellState
  let patched ← patchCellStates numEnergyGroups dom.cell_state cell_state_h
  let csAddr ← mallocDev dom.cell_state.length
  memcpyDev csAddr (BlockVals.cellStates patched)
  let nbrAddr ← mallocDev dom.mesh._nbrRank.length
  memcpyDev nbrAddr (BlockVals.ints dom.mesh._nbrRank)
  let nodeAddr ← mallocDev dom.mesh._node.length
  memcpyDev nodeAddr (BlockVals.vectors dom.mesh._node)
  let connStaged ← buildConnCells dom.mesh._cellConnectivity
  let connAddr ← mallocDev dom.mesh._cellConnectivity.length
  memcpyDev connAddr (BlockVals.connCells connStaged)
  let geomStaged ← buildGeomCells dom.mesh._cellGeometry
  let geomAddr ← mallocDev dom.mesh._cellGeometry.length
  memcpyDev geomAddr (BlockVals.geomCells geomStaged)
  Pure.pure
    { domainIndex := dom.domainIndex,
      global_domain := dom.global_domain,
      cell_state := DPtr.dev csAddr,
      cell_stateSize := dom.cell_state.length,
      mesh :=
        { _domainGid := dom.mesh._domainGid,
          _nbrRank := DPtr.dev nbrAddr,
          _nbrRankSize := dom.mesh._nbrRank.length,
          _node := DPtr.dev nodeAddr,
          _nodeSize := dom.mesh._node.length,
          _cellConnectivity := DPtr.dev connAddr,
          _cellConnectivitySize := dom.mesh._cellConnectivity.length,
          _cellGeometry := DPtr.dev geomAddr,
          _cellGeometrySize := dom.mesh._cellGeometry.length } }

/-- The loop over domains of MC_Domain.hh lines 172-350, building the
host-side staging array `domain_h` in host iteration order. -/
def forEachDomain (numEnergyGroups : Nat) :
    List MC_Domain → BuildM (List MC_Domain_d)
  | [] => Pure.pure []
  | dom :: doms => do
    let d ← copyOneDomain numEnergyGroups dom
    let rest ← forEachDomain numEnergyGroups doms
    Pure.pure (d :: rest)

/-- `copyDomainDevice` (MC_Domain.hh lines 165-356).  The host model is
the by-value `domain` argument; `domain_d` is the caller-supplied
target-space destination for the descriptor array; the returned value is
the by-reference out-parameter `domainSize`. -/
def copyDomainDevice (numEnergyGroups : Nat) (domain_d : Nat) :
    BuildM Nat := do
  let domain ← getHostDomains
  let domainSize := domain.length
  let domain_h ← forEachDomain numEnergyGroups domain
  memcpyDev domain_d (BlockVals.domains domain_h)
  Pure.pure domainSize

/-- Dereference a pointer to a populated device block. -/
def readBlock (heap : DevHeap) : DPtr → Option BlockVals
  | DPtr.host => none
  | DPtr.dev a =>
    match heap[a]? with
    | some b => b
    | none => none

/-- Read `n` doubles from a device block (fails on a missing, unpopulated
or wrongly-typed block, or when fewer than `n` elements are present). -/
def readDoubles (heap : DevHeap) (p : DPtr) (n : Nat) :
    Option (List DoubleBits) :=
  match readBlock heap p with
  | some (BlockVals.doubles vs) =>
    if n ≤ vs.length then some (vs.take n) else none
  | _ => none

/-- Read `n` ints from a device block. -/
def readInts (heap : DevHeap) (p : DPtr) (n : Nat) : Option (List Int) :=
  match readBlock heap p with
  | some (BlockVals.ints vs) =>
    if n ≤ vs.length then some (vs.take n) else none
  | _ => none

/-- Read `n` node vectors from a device block. -/
def readVectors (heap : DevHeap) (p : DPtr) (n : Nat) :
    Option (List MC_Vector) :=
  match readBlock heap p with
  | some (BlockVals.vectors vs) =>
    if n ≤ vs.length then some (vs.take n) else none
  | _ => none

/-- Read `n` facet-adjacency records from a device block. -/
def readFacetAdjacencies (heap : DevHeap) (p : DPtr) (n : Nat) :
    Option (List MC_Facet_Adjacency) :=
  match readBlock heap p with
  | some (BlockVals.facetAdjacencies vs) =>
    if n ≤ vs.length then some (vs.take n) else none
  | _ => none

/-- Read `n` geometric planes from a device block. -/
def readPlanes (heap : DevHeap) (p : DPtr) (n : Nat) :
    Option (List MC_General_Plane) :=
  match readBlock heap p with
  | some (BlockVals.planes vs) =>
    if n ≤ vs.length then some (vs.take n) else none
  | _ => none

/-- Read `n` device cell-state records from a device block. -/
def readCellStates (heap : DevHeap) (p : DPtr) (n : Nat) :
    Option (List MC_Cell_State_dev) :=
  match readBlock heap p with
  | some (BlockVals.cellStates vs) =>
    if n ≤ vs.length then some (vs.take n) else none
  | _ => none

/-- Read `n` device connectivity records from a device block. -/
def readConnCells (heap : DevHeap) (p : DPtr) (n : Nat) :
    Option (List MC_Facet_Adjacency_Cell_dev) :=
  match readBlock heap p with
  | some (BlockVals.connCells vs) =>
    if n ≤ vs.length then some (vs.take n) else none
  | _ => none

/-- Read `n` device geometry records from a device block. -/
def readGeomCells (heap : DevHeap) (p : DPtr) (n : Nat) :
    Option (List MC_Facet_Geometry_Cell_dev) :=
  match readBlock heap p with
  | some (BlockVals.geomCells vs) =>
    if n ≤ vs.length then some (vs.take n) else none
  | _ => none

/-- Read `n` domain descriptors from a device block. -/
def readDomains (heap : DevHeap) (p : DPtr) (n : Nat) :
    Option (List MC_Domain_d) :=
  match readBlock heap p with
  | some (BlockVals.domains vs) =>
    if n ≤ vs.length then some (vs.take n) else none
  | _ => none

/-- Address-free view of a mirrored cell state, obtained by copying its
leaf array back from the target space. -/
structure CellStateView where
  _total : List DoubleBits
  rest : Nat
deriving DecidableEq, Repr

/-- Address-free view of a mirrored connectivity cell. -/
structure ConnCellView where
  num_points : Nat
  num_facets : Nat
  _point : List Int
  _facet : List MC_Facet_Adjacency
deriving DecidableEq, Repr

/-- Address-free view of a mirrored geometry cell. -/
structure GeomCellView where
  _size : Nat
  _facet : List MC_General_Plane
deriving DecidableEq, Repr

/-- Address-free view of a mirrored mesh. -/
structure MeshView where
  _domainGid : Int
  _nbrRank : List Int
  _node : List MC_Vector
  _cellConnectivity : List ConnCellView
  _cellGeometry : List GeomCellView
deriving DecidableEq, Repr

/-- Address-free view of a mirrored domain descriptor. -/
structure DomainView where
  domainIndex : Int
  global_domain : Int
  cell_state : List CellStateView
  mesh : MeshView
deriving DecidableEq, Repr

/-- Traverse a list with a fallible reader, failing if any element read
fails. -/
def mapOption {α β : Type} (f : α → Option β) : List α → Option (List β)
  | [] => some []
  | a :: t => do
    let b ← f a
    let rest ← mapOption f t
    Pure.pure (b :: rest)

/-- Copy a mirrored cell state back from the target space (the mirror
stores no per-cell length; `numEnergyGroups` is the global constant). -/
def readCellStateView (heap : DevHeap) (numEnergyGroups : Nat)
    (d : MC_Cell_State_dev) : Option CellStateView := do
  let t ← readDoubles heap d._total numEnergyGroups
  Pure.pure { _total := t, rest := d.rest }

/-- Copy a mirrored connectivity cell back from the target space. -/
def readConnCellView (heap : DevHeap) (d : MC_Facet_Adjacency_Cell_dev) :
    Option ConnCellView := do
  let ps ← readInts heap d._point d.num_points
  let fs ← readFacetAdjacencies heap d._facet d.num_facets
  Pure.pure
    { num_points := d.num_points, num_facets := d.num_facets,
      _point := ps, _facet := fs }

/-- Copy a mirrored geometry cell back from the target space. -/
def readGeomCellView (heap : DevHeap) (d : MC_Facet_Geometry_Cell_dev) :
    Option GeomCellView := do
  let fs ← readPlanes heap d._facet d._size
  Pure.pure { _size := d._size, _facet := fs }

/-- Copy one mirrored domain descriptor and everything reachable from it
back from the target space. -/
def readDomainView (heap : DevHeap) (numEnergyGroups : Nat)
    (d : MC_Domain_d) : Option DomainView := do
  let cs ← readCellStates heap d.cell_state d.cell_stateSize
  let csv ← mapOption (readCellStateView heap numEnergyGroups) cs
  let nbr ← readInts heap d.mesh._nbrRank d.mesh._nbrRankSize
  let nds ← readVectors heap d.mesh._node d.mesh._nodeSize
  let cc ← readConnCells heap d.mesh._cellConnectivity
            d.mesh._cellConnectivitySize
  let ccv ← mapOption (readConnCellView heap) cc
  let cg ← readGeomCells heap d.mesh._cellGeometry
            d.mesh._cellGeometrySize
  let cgv ← mapOption (readGeomCellView heap) cg
  Pure.pure
    { domainIndex := d.domainIndex, global_domain := d.global_domain,
      cell_state := csv,
      mesh :=
        { _domainGid := d.mesh._domainGid, _nbrRank := nbr, _node := nds,
          _cellConnectivity := ccv, _cellGeometry := cgv } }

/-- Copy the whole mirror (descriptor array at `domain_d` of `n` entries
plus everything reachable) back from the target space. -/
def readMirror (heap : DevHeap) (numEnergyGroups : Nat) (domain_d : Nat)
    (n : Nat) : Option (List DomainView) := do
  let ds ← readDomains heap (DPtr.dev domain_d) n
  mapOption (readDomainView heap numEnergyGroups) ds

/-- The view the host data itself induces: what an exact mirror must read
back as. -/
def hostCellStateView (numEnergyGroups : Nat) (c : MC_Cell_State) :
    CellStateView :=
  { _total := c._total.take numEnergyGroups, rest := c.rest }

/-- Host-induced view of a connectivity cell. -/
def hostConnCellView (c : MC_Facet_Adjacency_Cell) : ConnCellView :=
  { num_points := c.num_points, num_facets := c.num_facets,
    _point := c._point.take c.num_points,
    _facet := c._facet.take c.num_facets }

/-- Host-induced view of a geometry cell. -/
def hostGeomCellView (c : MC_Facet_Geometry_Cell) : GeomCellView :=
  { _size := c._size, _facet := c._facet.take c._size }

/-- Host-induced view of a whole domain. -/
def hostDomainView (numEnergyGroups : Nat) (d : MC_Domain) : DomainView :=
  { domainIndex := d.domainIndex, global_domain := d.global_domain,
    cell_state := d.cell_state.map (hostCellStateView numEnergyGroups),
    mesh :=
      { _domainGid := d.mesh._domainGid, _nbrRank := d.mesh._nbrRank,
        _node := d.mesh._node,
        _cellConnectivity := d.mesh._cellConnectivity.map hostConnCellView,
        _cellGeometry := d.mesh._cellGeometry.map hostGeomCellView } }

/-- Well-formed host connectivity cell: the declared counts equal the
actual element counts (spec, section 3 invariants). -/
def WFConnCell (c : MC_Facet_Adjacency_Cell) : Prop :=
  c.num_points = c._point.length ∧ c.num_facets = c._facet.length

/-- Well-formed host geometry cell: declared count = actual count. -/
def WFGeomCell (c : MC_Facet_Geometry_Cell) : Prop :=
  c._size = c._facet.length

/-- Well-formed host domain for a given `numEnergyGroups`: every cell's
cross-section array has exactly `numEnergyGroups` entries and every
declared per-cell count matches the actual array (spec, section 3). -/
def WFDomain (numEnergyGroups : Nat) (d : MC_Domain) : Prop :=
  (∀ c ∈ d.cell_state, c._total.length = numEnergyGroups) ∧
  (∀ c ∈ d.mesh._cellConnectivity, WFConnCell c) ∧
  (∀ c ∈ d.mesh._cellGeometry, WFGeomCell c)

/-- Well-formed host domain sequence. -/
def WFHost (numEnergyGroups : Nat) (ds : List MC_Domain) : Prop :=
  ∀ d ∈ ds, WFDomain numEnergyGroups d

instance : DecidablePred WFConnCell := fun c => by
  unfold WFConnCell; infer_instance

instance : DecidablePred WFGeomCell := fun c => by
  unfold WFGeomCell; infer_instance

instance (numEnergyGroups : Nat) :
    DecidablePred (WFDomain numEnergyGroups) := fun d => by
  unfold WFDomain; infer_instance

instance (numEnergyGroups : Nat) (ds : List MC_Domain) :
    Decidable (WFHost numEnergyGroups ds) := by
  unfold WFHost; infer_instance

/-- Device addresses embedded inside a pointer value. -/
def DPtr.devAddrs : DPtr → List Nat
  | DPtr.host => []
  | DPtr.dev a => [a]

/-- Whether a pointer value is a host address. -/
def DPtr.isHostPtr : DPtr → Bool
  | DPtr.host => true
  | DPtr.dev _ => false

/-- All device addresses embedded in the bytes of a block's contents. -/
def embeddedAddrs : BlockVals → List Nat
  | BlockVals.doubles _ => []
  | BlockVals.ints _ => []
  | BlockVals.vectors _ => []
  | BlockVals.facetAdjacencies _ => []
  | BlockVals.planes _ => []
  | BlockVals.cellStates vs => vs.flatMap fun c => c._total.devAddrs
  | BlockVals.connCells vs =>
    vs.flatMap fun c => c._point.devAddrs ++ c._facet.devAddrs
  | BlockVals.geomCells vs => vs.flatMap fun c => c._facet.devAddrs
  | BlockVals.domains vs =>
    vs.flatMap fun d =>
      d.cell_state.devAddrs ++ d.mesh._nbrRank.devAddrs ++
        d.mesh._node.devAddrs ++ d.mesh._cellConnectivity.devAddrs ++
        d.mesh._cellGeometry.devAddrs

/-- Whether any host address occurs in the bytes of a block's contents. -/
def hasHostPtr : BlockVals → Bool
  | BlockVals.doubles _ => false
  | BlockVals.ints _ => false
  | BlockVals.vectors _ => false
  | BlockVals.facetAdjacencies _ => false
  | BlockVals.planes _ => false
  | BlockVals.cellStates vs => vs.any fun c => c._total.isHostPtr
  | BlockVals.connCells vs =>
    vs.any fun c => c._point.isHostPtr || c._facet.isHostPtr
  | BlockVals.geomCells vs => vs.any fun c => c._facet.isHostPtr
  | BlockVals.domains vs =>
    vs.any fun d =>
      d.cell_state.isHostPtr || d.mesh._nbrRank.isHostPtr ||
        d.mesh._node.isHostPtr || d.mesh._cellConnectivity.isHostPtr ||
        d.mesh._cellGeometry.isHostPtr

/-- Bottom-up ordering check over a trace: processing events in order with
`pop` the set of target-space blocks whose population has completed, every
device copy must embed only addresses of already-populated blocks and no
host addresses; the copied block then counts as populated. -/
def goodFrom (pop : List Nat) : List Event → Bool
  | [] => true
  | Event.alloc _ _ :: t => goodFrom pop t
  | Event.copyHost :: t => goodFrom pop t
  | Event.copyDev a vs :: t =>
    (embeddedAddrs vs).all (fun b => decide (b ∈ pop)) &&
      !hasHostPtr vs && goodFrom (a :: pop) t

/-- Populated-block accumulator of a trace (targets of device copies), on
top of an initial set. -/
def popAcc : List Event → List Nat → List Nat
  | [], pop => pop
  | Event.alloc _ _ :: t, pop => popAcc t pop
  | Event.copyHost :: t, pop => popAcc t pop
  | Event.copyDev a _ :: t, pop => popAcc t (a :: pop)

/-- Every address an event touches (allocation result or device-copy
target) is at least `n`: the trace only works on blocks the builder itself
created at or after heap size `n`. -/
def eventAddrLB (n : Nat) : List Event → Bool
  | [] => true
  | Event.alloc a _ :: t => n ≤ a && eventAddrLB n t
  | Event.copyHost :: t => eventAddrLB n t
  | Event.copyDev a _ :: t => n ≤ a && eventAddrLB n t

/-- The addresses allocated by the events of a trace. -/
def allocAddrs : List Event → List Nat
  | [] => []
  | Event.alloc a _ :: t => a :: allocAddrs t
  | Event.copyHost :: t => allocAddrs t
  | Event.copyDev _ _ :: t => allocAddrs t

/-- Erasure of the host fields the mirror carries no counterpart for: the
mesh's neighbor-domain identifiers and the bulk-storage members (and the
domain's cached cross-section storage). -/
def eraseUnmirrored (d : MC_Domain) : MC_Domain :=
  { d with
     cachedCrossSectionStorage := 0,
     mesh := { d.mesh with _nbrDomainGid := [], bulkStorage := 0 } }

/-!
Embedding of the host-side verification loop of `test` (math_bfe.cpp,
lines 104-130).  The device kernels fill `dpct_results_buffer` with
`dpct::bfe_safe` outputs and `slow_results_buffer` with `bfe_slow`
outputs; the host then constructs accessors and compares.  Both result
accessors are constructed over `dpct_results_buffer` (lines 107-110), so
the comparison loop reads the same buffer twice.
-/

/-- The buffers of `test` after the kernels ran (contents arbitrary here:
the comparison's outcome must not depend on them for the claim). -/
structure BfeBuffers (T : Type) where
  source_buffer : List T
  dpct_results_buffer : List T
  slow_results_buffer : List T
deriving DecidableEq, Repr

/-- Host accessor of math_bfe.cpp lines 107-108: over
`dpct_results_buffer`. -/
def dpct_result_accessor {T : Type} (b : BfeBuffers T) : List T :=
  b.dpct_results_buffer

/-- Host accessor of math_bfe.cpp lines 109-110: also constructed over
`dpct_results_buffer`. -/
def slow_result_accessor {T : Type} (b : BfeBuffers T) : List T :=
  b.dpct_results_buffer

/-- The comparison loop of math_bfe.cpp lines 112-122: count the indices
at which the two accessors disagree. -/
def bfe_test_failed {T : Type} [DecidableEq T] (b : BfeBuffers T) : Nat :=
  (List.zip (dpct_result_accessor b) (slow_result_accessor b)).countP
    fun p => decide (p.1 ≠ p.2)

/-- The return value of `test` (math_bfe.cpp line 129): `!failed`. -/
def bfe_test_ret {T : Type} [DecidableEq T] (b : BfeBuffers T) : Bool :=
  bfe_test_failed b == 0

/-- The always-succeeding failure oracle. -/
def allOK : Nat → Bool := fun _ => true

/-- Replace the host component of a state. -/
def setHost (s : BuildState) (h : List MC_Domain) : BuildState :=
  { s with host := h }

/-- Bookkeeping relation between a state and any later state of the same
build: the host model and the oracle are untouched, the operation counter
only advances, exactly one trace event is recorded per counted operation,
and every operation counted so far succeeded. -/
def StepOK (s s' : BuildState) : Prop :=
  s'.host = s.host ∧ s'.ok = s.ok ∧ s.counter ≤ s'.counter ∧
  s'.trace.length + s.counter = s.trace.length + s'.counter ∧
  (∀ j, s.counter ≤ j → j < s'.counter → s.ok j = true)

/-- A computation is well-checked: it relates every start state to its end
state by `StepOK`, and when it aborts, the operation at the final counter
is the one the oracle failed. -/
def OkSpec {α : Type} (m : BuildM α) : Prop :=
  ∀ s, StepOK s (m s).2 ∧ ((m s).1 = none → s.ok (m s).2.counter = false)

/-- A computation neither reads nor writes the host domain model. -/
def HostIndep {α : Type} (m : BuildM α) : Prop :=
  ∀ s h, m (setHost s h) = ((m s).1, setHost (m s).2 h)

theorem stepOK_refl (s : BuildState) : StepOK s s :=
  ⟨rfl, rfl, le_refl _, rfl, fun _j h1 h2 => absurd (h1.trans_lt h2) (lt_irrefl _)⟩

theorem stepOK_trans {s1 s2 s3 : BuildState} (h12 : StepOK s1 s2)
    (h23 : StepOK s2 s3) : StepOK s1 s3 := by
  obtain ⟨ha1, ha2, ha3, ha4, ha5⟩ := h12
  obtain ⟨hb1, hb2, hb3, hb4, hb5⟩ := h23
  refine ⟨hb1.trans ha1, hb2.trans ha2, ha3.trans hb3, by omega, ?_⟩
  intro j hj1 hj2
  rcases lt_or_le j s2.counter with h | h
  · exact ha5 j hj1 h
  · have := hb5 j h hj2
    rwa [ha2] at this

theorem okSpec_pure {α : Type} (a : α) : OkSpec (Pure.pure a : BuildM α) :=
  fun s => ⟨stepOK_refl s, by simp⟩

theorem okSpec_bind {α β : Type} {x : BuildM α} {f : α → BuildM β}
    (hx : OkSpec x) (hf : ∀ a, OkSpec (f a)) : OkSpec (x >>= f) := by
  intro s
  obtain ⟨hs1, hs2⟩ := hx s
  rcases hxs : x s with ⟨r, s1⟩
  rw [hxs] at hs1 hs2
  cases r with
  | none =>
    constructor
    · simpa [BuildM.bind_apply, hxs] using hs1
    · intro _
      simpa [BuildM.bind_apply, hxs] using hs2 rfl
  | some a =>
    obtain ⟨hf1, hf2⟩ := hf a s1
    constructor
    · have : (x >>= f) s = f a s1 := by simp [BuildM.bind_apply, hxs]
      rw [this]
      exact stepOK_trans hs1 hf1
    · intro hnone
      have heq : (x >>= f) s = f a s1 := by simp [BuildM.bind_apply, hxs]
      rw [heq] at hnone ⊢
      have := hf2 hnone
      rwa [hs1.2.1] at this

theorem okSpec_mallocDev (n : Nat) : OkSpec (mallocDev n) := by
  intro s
  unfold mallocDev
  by_cases h : s.ok s.counter
  · simp only [h, if_true]
    constructor
    · refine ⟨rfl, rfl, ?_, ?_, ?_⟩
      · show s.counter ≤ s.counter + 1
        omega
      · show (s.trace ++ [Event.alloc s.heap.length n]).length + s.counter =
          s.trace.length + (s.counter + 1)
        simp
        omega
      · intro j h1 h2
        have h2' : j < s.counter + 1 := h2
        have hj : j = s.counter := by omega
        rwa [hj]
    · intro hc
      exact absurd hc (by simp)
  · simp only [h, if_false]
    refine ⟨stepOK_refl s, fun _ => ?_⟩
    simpa using h

theorem okSpec_memcpyDev (a : Nat) (vs : BlockVals) :
    OkSpec (memcpyDev a vs) := by
  intro s
  unfold memcpyDev
  by_cases h : s.ok s.counter
  · simp only [h, if_true]
    constructor
    · refine ⟨rfl, rfl, ?_, ?_, ?_⟩
      · show s.counter ≤ s.counter + 1
        omega
      · show (s.trace ++ [Event.copyDev a vs]).length + s.counter =
          s.trace.length + (s.counter + 1)
        simp
        omega
      · intro j h1 h2
        have h2' : j < s.counter + 1 := h2
        have hj : j = s.counter := by omega
        rwa [hj]
    · intro hc
      exact absurd hc (by simp)
  · simp only [h, if_false]
    refine ⟨stepOK_refl s, fun _ => ?_⟩
    simpa using h

theorem okSpec_memcpyHost : OkSpec memcpyHost := by
  intro s
  unfold memcpyHost
  by_cases h : s.ok s.counter
  · simp only [h, if_true]
    constructor
    · refine ⟨rfl, rfl, ?_, ?_, ?_⟩
      · show s.counter ≤ s.counter + 1
        omega
      · show (s.trace ++ [Event.copyHost]).length + s.counter =
          s.trace.length + (s.counter + 1)
        simp
        omega
      · intro j h1 h2
        have h2' : j < s.counter + 1 := h2
        have hj : j = s.counter := by omega
        rwa [hj]
    · intro hc
      exact absurd hc (by simp)
  · simp only [h, if_false]
    refine ⟨stepOK_refl s, fun _ => ?_⟩
    simpa using h

theorem okSpec_getHostDomains : OkSpec getHostDomains :=
  fun s => ⟨stepOK_refl s, by simp [getHostDomains]⟩

theorem okSpec_patchCellStates (G : Nat) (cs : List MC_Cell_State)
    (ds : List MC_Cell_State_dev) : OkSpec (patchCellStates G cs ds) := by
  induction cs generalizing ds with
  | nil => rw [patchCellStates]; exact okSpec_pure _
  | cons c cs ih =>
    cases ds with
    | nil => rw [patchCellStates]; exact okSpec_pure _
    | cons d ds =>
      rw [patchCellStates]
      refine okSpec_bind (okSpec_mallocDev _) fun a => ?_
      refine okSpec_bind (okSpec_memcpyDev _ _) fun _ => ?_
      exact okSpec_bind (ih _) fun rest => okSpec_pure _

theorem okSpec_buildConnCells (cs : List MC_Facet_Adjacency_Cell) :
    OkSpec (buildConnCells cs) := by
  induction cs with
  | nil => rw [buildConnCells]; exact okSpec_pure _
  | cons c cs ih =>
    rw [buildConnCells]
    refine okSpec_bind (okSpec_mallocDev _) fun ap => ?_
    refine okSpec_bind (okSpec_memcpyDev _ _) fun _ => ?_
    refine okSpec_bind (okSpec_mallocDev _) fun af => ?_
    refine okSpec_bind (okSpec_memcpyDev _ _) fun _ => ?_
    exact okSpec_bind ih fun rest => okSpec_pure _

theorem okSpec_buildGeomCells (cs : List MC_Facet_Geometry_Cell) :
    OkSpec (buildGeomCells cs) := by
  induction cs with
  | nil => rw [buildGeomCells]; exact okSpec_pure _
  | cons c cs ih =>
    rw [buildGeomCells]
    refine okSpec_bind (okSpec_mallocDev _) fun a => ?_
    refine okSpec_bind (okSpec_memcpyDev _ _) fun _ => ?_
    exact okSpec_bind ih fun rest => okSpec_pure _

theorem okSpec_copyOneDomain (G : Nat) (dom : MC_Domain) :
    OkSpec (copyOneDomain G dom) := by
  unfold copyOneDomain
  refine okSpec_bind okSpec_memcpyHost fun _ => ?_
  refine okSpec_bind (okSpec_patchCellStates _ _ _) fun patched => ?_
  refine okSpec_bind (okSpec_mallocDev _) fun csAddr => ?_
  refine okSpec_bind (okSpec_memcpyDev _ _) fun _ => ?_
  refine okSpec_bind (okSpec_mallocDev _) fun nbrAddr => ?_
  refine okSpec_bind (okSpec_memcpyDev _ _) fun _ => ?_
  refine okSpec_bind (okSpec_mallocDev _) fun nodeAddr => ?_
  refine okSpec_bind (okSpec_memcpyDev _ _) fun _ => ?_
  refine okSpec_bind (okSpec_buildConnCells _) fun connStaged => ?_
  refine okSpec_bind (okSpec_mallocDev _) fun connAddr => ?_
  refine okSpec_bind (okSpec_memcpyDev _ _) fun _ => ?_
  refine okSpec_bind (okSpec_buildGeomCells _) fun geomStaged => ?_
  refine okSpec_bind (okSpec_mallocDev _) fun geomAddr => ?_
  refine okSpec_bind (okSpec_memcpyDev _ _) fun _ => ?_
  exact okSpec_pure _

theorem okSpec_forEachDomain (G : Nat) (doms : List MC_Domain) :
    OkSpec (forEachDomain G doms) := by
  induction doms with
  | nil => rw [forEachDomain]; exact okSpec_pure _
  | cons dom doms ih =>
    rw [forEachDomain]
    refine okSpec_bind (okSpec_copyOneDomain _ _) fun d => ?_
    exact okSpec_bind ih fun rest => okSpec_pure _

theorem okSpec_copyDomainDevice (G domain_d : Nat) :
    OkSpec (copyDomainDevice G domain_d) := by
  unfold copyDomainDevice
  refine okSpec_bind okSpec_getHostDomains fun domain => ?_
  refine okSpec_bind (okSpec_forEachDomain _ _) fun domain_h => ?_
  exact okSpec_bind (okSpec_memcpyDev _ _) fun _ => okSpec_pure _

theorem hostIndep_pure {α : Type} (a : α) :
    HostIndep (Pure.pure a : BuildM α) := fun _ _ => rfl

theorem hostIndep_bind {α β : Type} {x : BuildM α} {f : α → BuildM β}
    (hx : HostIndep x) (hf : ∀ a, HostIndep (f a)) : HostIndep (x >>= f) := by
  intro s h
  have hxh := hx s h
  rcases hxs : x s with ⟨r, s1⟩
  rw [hxs] at hxh
  cases r with
  | none => simp [BuildM.bind_apply, hxs, hxh]
  | some a =>
    have := hf a s1 h
    simp [BuildM.bind_apply, hxs, hxh, this]

theorem hostIndep_mallocDev (n : Nat) : HostIndep (mallocDev n) := by
  intro s h
  unfold mallocDev setHost
  by_cases hok : s.ok s.counter <;> simp [hok]

theorem hostIndep_memcpyDev (a : Nat) (vs : BlockVals) :
    HostIndep (memcpyDev a vs) := by
  intro s h
  unfold memcpyDev setHost
  by_cases hok : s.ok s.counter <;> simp [hok]

theorem hostIndep_memcpyHost : HostIndep memcpyHost := by
  intro s h
  unfold memcpyHost setHost
  by_cases hok : s.ok s.counter <;> simp [hok]

theorem hostIndep_patchCellStates (G : Nat) (cs : List MC_Cell_State)
    (ds : List MC_Cell_State_dev) : HostIndep (patchCellStates G cs ds) := by
  induction cs generalizing ds with
  | nil => rw [patchCellStates]; exact hostIndep_pure _
  | cons c cs ih =>
    cases ds with
    | nil => rw [patchCellStates]; exact hostIndep_pure _
    | cons d ds =>
      rw [patchCellStates]
      refine hostIndep_bind (hostIndep_mallocDev _) fun a => ?_
      refine hostIndep_bind (hostIndep_memcpyDev _ _) fun _ => ?_
      exact hostIndep_bind (ih _) fun rest => hostIndep_pure _

theorem hostIndep_buildConnCells (cs : List MC_Facet_Adjacency_Cell) :
    HostIndep (buildConnCells cs) := by
  induction cs with
  | nil => rw [buildConnCells]; exact hostIndep_pure _
  | cons c cs ih =>
    rw [buildConnCells]
    refine hostIndep_bind (hostIndep_mallocDev _) fun ap => ?_
    refine hostIndep_bind (hostIndep_memcpyDev _ _) fun _ => ?_
    refine hostIndep_bind (hostIndep_mallocDev _) fun af => ?_
    refine hostIndep_bind (hostIndep_memcpyDev _ _) fun _ => ?_
    exact hostIndep_bind ih fun rest => hostIndep_pure _

theorem hostIndep_buildGeomCells (cs : List MC_Facet_Geometry_Cell) :
    HostIndep (buildGeomCells cs) := by
  induction cs with
  | nil => rw [buildGeomCells]; exact hostIndep_pure _
  | cons c cs ih =>
    rw [buildGeomCells]
    refine hostIndep_bind (hostIndep_mallocDev _) fun a => ?_
    refine hostIndep_bind (hostIndep_memcpyDev _ _) fun _ => ?_
    exact hostIndep_bind ih fun rest => hostIndep_pure _

theorem hostIndep_copyOneDomain (G : Nat) (dom : MC_Domain) :
    HostIndep (copyOneDomain G dom) := by
  unfold copyOneDomain
  refine hostIndep_bind hostIndep_memcpyHost fun _ => ?_
  refine hostIndep_bind (hostIndep_patchCellStates _ _ _) fun patched => ?_
  refine hostIndep_bind (hostIndep_mallocDev _) fun csAddr => ?_
  refine hostIndep_bind (hostIndep_memcpyDev _ _) fun _ => ?_
  refine hostIndep_bind (hostIndep_mallocDev _) fun nbrAddr => ?_
  refine hostIndep_bind (hostIndep_memcpyDev _ _) fun _ => ?_
  refine hostIndep_bind (hostIndep_mallocDev _) fun nodeAddr => ?_
  refine hostIndep_bind (hostIndep_memcpyDev _ _) fun _ => ?_
  refine hostIndep_bind (hostIndep_buildConnCells _) fun connStaged => ?_
  refine hostIndep_bind (hostIndep_mallocDev _) fun connAddr => ?_
  refine hostIndep_bind (hostIndep_memcpyDev _ _) fun _ => ?_
  refine hostIndep_bind (hostIndep_buildGeomCells _) fun geomStaged => ?_
  refine hostIndep_bind (hostIndep_mallocDev _) fun geomAddr => ?_
  refine hostIndep_bind (hostIndep_memcpyDev _ _) fun _ => ?_
  exact hostIndep_pure _

theorem hostIndep_forEachDomain (G : Nat) (doms : List MC_Domain) :
    HostIndep (forEachDomain G doms) := by
  induction doms with
  | nil => rw [forEachDomain]; exact hostIndep_pure _
  | cons dom doms ih =>
    rw [forEachDomain]
    refine hostIndep_bind (hostIndep_copyOneDomain _ _) fun d => ?_
    exact hostIndep_bind ih fun rest => hostIndep_pure _

/-- `copyOneDomain` never inspects the host fields the mirror has no
counterpart for: erase-equal domains are processed identically. -/
theorem copyOneDomain_congr (G : Nat) {d1 d2 : MC_Domain}
    (h : eraseUnmirrored d1 = eraseUnmirrored d2) :
    copyOneDomain G d1 = copyOneDomain G d2 := by
  obtain ⟨i1, g1, cs1, b1, ⟨gid1, nbr1, rk1, nd1, cc1, cg1, bs1⟩⟩ := d1
  obtain ⟨i2, g2, cs2, b2, ⟨gid2, nbr2, rk2, nd2, cc2, cg2, bs2⟩⟩ := d2
  simp only [eraseUnmirrored, MC_Domain.mk.injEq, MC_Mesh_Domain.mk.injEq] at h
  obtain ⟨hi, hg, hcs, -, hgid, -, hrk, hnd, hcc, hcg, -⟩ := h
  subst hi hg hcs hgid hrk hnd hcc hcg
  rfl

/-- `forEachDomain` on erase-equal host sequences is the same
computation. -/
theorem forEachDomain_congr (G : Nat) {l1 l2 : List MC_Domain}
    (h : l1.map eraseUnmirrored = l2.map eraseUnmirrored) :
    forEachDomain G l1 = forEachDomain G l2 := by
  induction l1 generalizing l2 with
  | nil =>
    cases l2 with
    | nil => rfl
    | cons _ _ => simp at h
  | cons d1 t1 ih =>
    cases l2 with
    | nil => simp at h
    | cons d2 t2 =>
      simp only [List.map_cons, List.cons.injEq] at h
      rw [forEachDomain, forEachDomain, copyOneDomain_congr G h.1, ih h.2]

theorem popAcc_mem (T : List Event) (P : List Nat) (b : Nat) :
    b ∈ popAcc T P ↔ b ∈ P ∨ ∃ vs, Event.copyDev b vs ∈ T := by
  induction T generalizing P with
  | nil => simp [popAcc]
  | cons e t ih =>
    cases e with
    | alloc a n =>
      rw [popAcc, ih]
      simp only [List.mem_cons]
      constructor
      · rintro (h | ⟨vs, h⟩)
        · exact Or.inl h
        · exact Or.inr ⟨vs, Or.inr h⟩
      · rintro (h | ⟨vs, h | h⟩)
        · exact Or.inl h
        · exact absurd h (by simp)
        · exact Or.inr ⟨vs, h⟩
    | copyHost =>
      rw [popAcc, ih]
      simp only [List.mem_cons]
      constructor
      · rintro (h | ⟨vs, h⟩)
        · exact Or.inl h
        · exact Or.inr ⟨vs, Or.inr h⟩
      · rintro (h | ⟨vs, h | h⟩)
        · exact Or.inl h
        · exact absurd h (by simp)
        · exact Or.inr ⟨vs, h⟩
    | copyDev a vs' =>
      rw [popAcc, ih]
      simp only [List.mem_cons]
      constructor
      · rintro ((h | h) | ⟨vs, h⟩)
        · subst h
          exact Or.inr ⟨vs', Or.inl rfl⟩
        · exact Or.inl h
        · exact Or.inr ⟨vs, Or.inr h⟩
      · rintro (h | ⟨vs, h | h⟩)
        · exact Or.inl (Or.inr h)
        · rw [Event.copyDev.injEq] at h
          exact Or.inl (Or.inl h.1)
        · exact Or.inr ⟨vs, h⟩

theorem goodFrom_mono {P P' : List Nat} (T : List Event)
    (hsub : ∀ b, b ∈ P → b ∈ P') (h : goodFrom P T = true) :
    goodFrom P' T = true := by
  induction T generalizing P P' with
  | nil => simp [goodFrom]
  | cons e t ih =>
    cases e with
    | alloc a n => exact ih hsub h
    | copyHost => exact ih hsub h
    | copyDev a vs =>
      rw [goodFrom] at h ⊢
      simp only [Bool.and_eq_true, List.all_eq_true, decide_eq_true_eq] at h ⊢
      obtain ⟨⟨h1, h2⟩, h3⟩ := h
      refine ⟨⟨fun b hb => hsub b (h1 b hb), h2⟩, ?_⟩
      refine ih ?_ h3
      intro b hb
      rcases List.mem_cons.mp hb with hb | hb
      · exact List.mem_cons.mpr (Or.inl hb)
      · exact List.mem_cons.mpr (Or.inr (hsub b hb))

theorem goodFrom_append (T1 T2 : List Event) (P : List Nat) :
    goodFrom P (T1 ++ T2) =
      (goodFrom P T1 && goodFrom (popAcc T1 P) T2) := by
  induction T1 generalizing P with
  | nil => simp [goodFrom, popAcc]
  | cons e t ih =>
    cases e with
    | alloc a n => rw [List.cons_append, goodFrom, goodFrom, popAcc, ih]
    | copyHost => rw [List.cons_append, goodFrom, goodFrom, popAcc, ih]
    | copyDev a vs =>
      rw [List.cons_append, goodFrom, goodFrom, popAcc, ih]
      simp [Bool.and_assoc]

theorem eventAddrLB_mono {m n : Nat} (T : List Event) (hmn : m ≤ n)
    (h : eventAddrLB n T = true) : eventAddrLB m T = true := by
  induction T with
  | nil => simp [eventAddrLB]
  | cons e t ih =>
    cases e with
    | alloc a k =>
      rw [eventAddrLB] at h ⊢
      simp only [Bool.and_eq_true, decide_eq_true_eq] at h ⊢
      exact ⟨le_trans hmn h.1, ih h.2⟩
    | copyHost => exact ih h
    | copyDev a vs =>
      rw [eventAddrLB] at h ⊢
      simp only [Bool.and_eq_true, decide_eq_true_eq] at h ⊢
      exact ⟨le_trans hmn h.1, ih h.2⟩

theorem eventAddrLB_append (n : Nat) (T1 T2 : List Event) :
    eventAddrLB n (T1 ++ T2) = (eventAddrLB n T1 && eventAddrLB n T2) := by
  induction T1 with
  | nil => simp [eventAddrLB]
  | cons e t ih =>
    cases e with
    | alloc a k =>
      rw [List.cons_append, eventAddrLB, eventAddrLB, ih, Bool.and_assoc]
    | copyHost => rw [List.cons_append, eventAddrLB, eventAddrLB, ih]
    | copyDev a vs =>
      rw [List.cons_append, eventAddrLB, eventAddrLB, ih, Bool.and_assoc]

theorem allocAddrs_append (T1 T2 : List Event) :
    allocAddrs (T1 ++ T2) = allocAddrs T1 ++ allocAddrs T2 := by
  induction T1 with
  | nil => simp [allocAddrs]
  | cons e t ih =>
    cases e with
    | alloc a k => rw [List.cons_append, allocAddrs, allocAddrs, ih]; rfl
    | copyHost => rw [List.cons_append, allocAddrs, allocAddrs, ih]
    | copyDev a vs => rw [List.cons_append, allocAddrs, allocAddrs, ih]

theorem not_mem_allocAddrs_of_lt {n a : Nat} (T : List Event)
    (h : eventAddrLB n T = true) (ha : a < n) : a ∉ allocAddrs T := by
  induction T with
  | nil => simp [allocAddrs]
  | cons e t ih =>
    cases e with
    | alloc b k =>
      rw [eventAddrLB] at h
      simp only [Bool.and_eq_true, decide_eq_true_eq] at h
      rw [allocAddrs]
      intro hmem
      rcases List.mem_cons.mp hmem with hmem | hmem
      · omega
      · exact ih h.2 hmem
    | copyHost => exact ih h
    | copyDev b vs =>
      rw [eventAddrLB] at h
      simp only [Bool.and_eq_true, decide_eq_true_eq] at h
      exact ih h.2

/-- A populated target-space block at or above address `n`, holding the
exact bit content `vs`. -/
def BlockAt (n : Nat) (heap : DevHeap) (p : DPtr) (vs : BlockVals) : Prop :=
  ∃ a, n ≤ a ∧ p = DPtr.dev a ∧ heap[a]? = some (some vs)

/-- The staged cell state mirrors the host cell state: same POD payload,
and its `_total` address holds exactly the host cross-section array (the
first `numEnergyGroups` doubles, as copied by MC_Domain.hh lines
195-203). -/
def CellStateMirrored (G n : Nat) (heap : DevHeap) (c : MC_Cell_State)
    (d : MC_Cell_State_dev) : Prop :=
  d.rest = c.rest ∧
  BlockAt n heap d._total (BlockVals.doubles (c._total.take G))

/-- The staged connectivity cell mirrors the host cell (MC_Domain.hh lines
259-295): counts copied, both leaf arrays bit-identical in target space. -/
def ConnCellMirrored (n : Nat) (heap : DevHeap)
    (c : MC_Facet_Adjacency_Cell) (d : MC_Facet_Adjacency_Cell_dev) : Prop :=
  d.num_points = c.num_points ∧ d.num_facets = c.num_facets ∧
  BlockAt n heap d._point (BlockVals.ints (c._point.take c.num_points)) ∧
  BlockAt n heap d._facet
    (BlockVals.facetAdjacencies (c._facet.take c.num_facets))

/-- The staged geometry cell mirrors the host cell (MC_Domain.hh lines
315-332). -/
def GeomCellMirrored (n : Nat) (heap : DevHeap)
    (c : MC_Facet_Geometry_Cell) (d : MC_Facet_Geometry_Cell_dev) : Prop :=
  d._size = c._size ∧
  BlockAt n heap d._facet (BlockVals.planes (c._facet.take c._size))

/-- The domain descriptor mirrors the host domain: scalars and counts
copied, and each of the five recorded addresses holds the corresponding
(recursively mirrored) array in target space. -/
def DomainMirrored (G n : Nat) (heap : DevHeap) (dom : MC_Domain)
    (d : MC_Domain_d) : Prop :=
  d.domainIndex = dom.domainIndex ∧
  d.global_domain = dom.global_domain ∧
  d.cell_stateSize = dom.cell_state.length ∧
  d.mesh._domainGid = dom.mesh._domainGid ∧
  d.mesh._nbrRankSize = dom.mesh._nbrRank.length ∧
  d.mesh._nodeSize = dom.mesh._node.length ∧
  d.mesh._cellConnectivitySize = dom.mesh._cellConnectivity.length ∧
  d.mesh._cellGeometrySize = dom.mesh._cellGeometry.length ∧
  (∃ stg, BlockAt n heap d.cell_state (BlockVals.cellStates stg) ∧
    List.Forall₂ (CellStateMirrored G n heap) dom.cell_state stg) ∧
  BlockAt n heap d.mesh._nbrRank (BlockVals.ints dom.mesh._nbrRank) ∧
  BlockAt n heap d.mesh._node (BlockVals.vectors dom.mesh._node) ∧
  (∃ stg, BlockAt n heap d.mesh._cellConnectivity
      (BlockVals.connCells stg) ∧
    List.Forall₂ (ConnCellMirrored n heap) dom.mesh._cellConnectivity stg) ∧
  (∃ stg, BlockAt n heap d.mesh._cellGeometry (BlockVals.geomCells stg) ∧
    List.Forall₂ (GeomCellMirrored n heap) dom.mesh._cellGeometry stg)

/-- One heap-evolution step that preserves every `BlockAt` fact above
address `n`: appending blocks, or overwriting a block below `n`. -/
def PreservesAbove (n : Nat) (h h' : DevHeap) : Prop :=
  ∀ a vs, n ≤ a → h[a]? = some (some vs) → h'[a]? = some (some vs)

theorem preservesAbove_append (n : Nat) (h Δ : DevHeap) :
    PreservesAbove n h (h ++ Δ) := by
  intro a vs _ hget
  rcases List.getElem?_eq_some.mp hget with ⟨hlt, -⟩
  rw [List.getElem?_append, if_pos hlt]
  exact hget

theorem preservesAbove_set (n : Nat) (h : DevHeap) (b : Nat)
    (v : Option BlockVals) (hb : b < n) :
    PreservesAbove n h (h.set b v) := by
  intro a vs ha hget
  rw [List.getElem?_set_ne (by omega)]
  exact hget

theorem preservesAbove_trans {n : Nat} {h1 h2 h3 : DevHeap}
    (a : PreservesAbove n h1 h2) (b : PreservesAbove n h2 h3) :
    PreservesAbove n h1 h3 :=
  fun x vs hx hget => b x vs hx (a x vs hx hget)

theorem blockAt_mono_heap {n : Nat} {h h' : DevHeap} {p : DPtr}
    {vs : BlockVals} (hp : PreservesAbove n h h')
    (hb : BlockAt n h p vs) : BlockAt n h' p vs := by
  obtain ⟨a, ha, hpa, hget⟩ := hb
  exact ⟨a, ha, hpa, hp a vs ha hget⟩

theorem blockAt_mono_bound {m n : Nat} {h : DevHeap} {p : DPtr}
    {vs : BlockVals} (hmn : m ≤ n) (hb : BlockAt n h p vs) :
    BlockAt m h p vs := by
  obtain ⟨a, ha, hpa, hget⟩ := hb
  exact ⟨a, le_trans hmn ha, hpa, hget⟩

theorem cellStateMirrored_mono {G n m : Nat} {h h' : DevHeap}
    {c : MC_Cell_State} {d : MC_Cell_State_dev} (hmn : m ≤ n)
    (hp : PreservesAbove m h h') (hc : CellStateMirrored G n h c d) :
    CellStateMirrored G m h' c d :=
  ⟨hc.1, blockAt_mono_heap hp (blockAt_mono_bound hmn hc.2)⟩

theorem connCellMirrored_mono {n m : Nat} {h h' : DevHeap}
    {c : MC_Facet_Adjacency_Cell} {d : MC_Facet_Adjacency_Cell_dev}
    (hmn : m ≤ n) (hp : PreservesAbove m h h')
    (hc : ConnCellMirrored n h c d) : ConnCellMirrored m h' c d :=
  ⟨hc.1, hc.2.1, blockAt_mono_heap hp (blockAt_mono_bound hmn hc.2.2.1),
    blockAt_mono_heap hp (blockAt_mono_bound hmn hc.2.2.2)⟩

theorem geomCellMirrored_mono {n m : Nat} {h h' : DevHeap}
    {c : MC_Facet_Geometry_Cell} {d : MC_Facet_Geometry_Cell_dev}
    (hmn : m ≤ n) (hp : PreservesAbove m h h')
    (hc : GeomCellMirrored n h c d) : GeomCellMirrored m h' c d :=
  ⟨hc.1, blockAt_mono_heap hp (blockAt_mono_bound hmn hc.2)⟩

theorem domainMirrored_mono {G n m : Nat} {h h' : DevHeap}
    {dom : MC_Domain} {d : MC_Domain_d} (hmn : m ≤ n)
    (hp : PreservesAbove m h h') (hd : DomainMirrored G n h dom d) :
    DomainMirrored G m h' dom d := by
  obtain ⟨h1, h2, h3, h4, h5, h6, h7, h8, ⟨stg1, hb1, hf1⟩, hb2, hb3,
    ⟨stg2, hb4, hf2⟩, ⟨stg3, hb5, hf3⟩⟩ := hd
  refine ⟨h1, h2, h3, h4, h5, h6, h7, h8, ?_, ?_, ?_, ?_, ?_⟩
  · exact ⟨stg1, blockAt_mono_heap hp (blockAt_mono_bound hmn hb1),
      hf1.imp fun _ _ hc => cellStateMirrored_mono hmn hp hc⟩
  · exact blockAt_mono_heap hp (blockAt_mono_bound hmn hb2)
  · exact blockAt_mono_heap hp (blockAt_mono_bound hmn hb3)
  · exact ⟨stg2, blockAt_mono_heap hp (blockAt_mono_bound hmn hb4),
      hf2.imp fun _ _ hc => connCellMirrored_mono hmn hp hc⟩
  · exact ⟨stg3, blockAt_mono_heap hp (blockAt_mono_bound hmn hb5),
      hf3.imp fun _ _ hc => geomCellMirrored_mono hmn hp hc⟩

/-- Setting the element one past a list, after extending it by one, is
appending the new value (used for the alloc-then-populate pattern). -/
theorem set_concat_length {α : Type} (h : List α) (x v : α) :
    (h ++ [x]).set h.length v = h ++ [v] := by
  induction h with
  | nil => rfl
  | cons y t ih => simp [List.set, ih]

theorem preservesAbove_refl (n : Nat) (h : DevHeap) : PreservesAbove n h h :=
  fun _ _ _ hget => hget

theorem getElem?_append_cons {α : Type} (h : List α) (x : α) (t : List α) :
    (h ++ (x :: t))[h.length]? = some x := by
  rw [List.getElem?_append]
  simp

theorem patchCellStates_run (G : Nat) (cells : List MC_Cell_State) :
    ∀ (s : BuildState), s.ok = allOK →
    ∃ out Δ T c',
      patchCellStates G cells (cells.map stageCellState) s =
        (some out,
         { host := s.host, ok := s.ok, heap := s.heap ++ Δ,
           trace := s.trace ++ T, counter := c' }) ∧
      List.Forall₂ (CellStateMirrored G s.heap.length (s.heap ++ Δ))
        cells out ∧
      (∀ P, goodFrom P T = true) ∧
      eventAddrLB s.heap.length T = true ∧
      (∀ b, b ∈ embeddedAddrs (BlockVals.cellStates out) →
        b ∈ popAcc T []) ∧
      hasHostPtr (BlockVals.cellStates out) = false := by
  induction cells with
  | nil =>
    intro s hok
    refine ⟨[], [], [], s.counter, ?_, List.Forall₂.nil, ?_, ?_, ?_, ?_⟩
    · simp [patchCellStates]
    · intro P
      rfl
    · rfl
    · intro b hb
      simp [embeddedAddrs] at hb
    · rfl
  | cons c cs ih =>
    intro s hok
    have hok0 : s.ok s.counter = true := by rw [hok]; rfl
    have hok1 : s.ok (s.counter + 1) = true := by rw [hok]; rfl
    obtain ⟨out', Δ', T', c', heq, hfor, hgood, hlb, hpop, hhp⟩ :=
      ih { host := s.host, ok := s.ok,
           heap := s.heap ++ [some (BlockVals.doubles (c._total.take G))],
           trace := s.trace ++ [Event.alloc s.heap.length G,
             Event.copyDev s.heap.length
               (BlockVals.doubles (c._total.take G))],
           counter := s.counter + 2 } hok
    refine ⟨{ _total := DPtr.dev s.heap.length, rest := c.rest } :: out',
      some (BlockVals.doubles (c._total.take G)) :: Δ',
      Event.alloc s.heap.length G ::
        Event.copyDev s.heap.length (BlockVals.doubles (c._total.take G)) ::
          T', c', ?_, ?_, ?_, ?_, ?_, ?_⟩
    · rw [List.map_cons, patchCellStates]
      simp only [BuildM.bind_apply, mallocDev, memcpyDev, hok0, hok1,
        if_true, set_concat_length, List.append_assoc, List.cons_append,
        List.nil_append, stageCellState]
      rw [heq]
      simp [List.append_assoc]
    · constructor
      · exact ⟨rfl, s.heap.length, le_refl _, rfl, getElem?_append_cons _ _ _⟩
      · have hheap : (s.heap ++ [some (BlockVals.doubles (c._total.take G))])
            ++ Δ' = s.heap ++
              (some (BlockVals.doubles (c._total.take G)) :: Δ') := by
          simp
        rw [hheap] at hfor
        refine hfor.imp fun _ _ hc => ?_
        refine cellStateMirrored_mono ?_ (preservesAbove_refl _ _) hc
        simp
    · intro P
      rw [goodFrom, goodFrom]
      simp only [embeddedAddrs, List.all_nil, hasHostPtr, Bool.not_false,
        Bool.true_and]
      exact hgood _
    · rw [eventAddrLB, eventAddrLB]
      simp only [decide_eq_true_eq, Bool.and_eq_true]
      simp only [List.length_append, List.length_cons,
        List.length_nil] at hlb
      exact ⟨le_refl _, le_refl _, eventAddrLB_mono T' (Nat.le_succ _) hlb⟩
    · intro b hb
      simp only [embeddedAddrs, List.flatMap_cons, DPtr.devAddrs,
        List.cons_append, List.nil_append, List.mem_cons] at hb
      rw [popAcc, popAcc]
      rcases hb with hb | hb
      · subst hb
        exact (popAcc_mem _ _ _).mpr (Or.inl (by simp))
      · have := hpop b (by simpa [embeddedAddrs] using hb)
        rcases (popAcc_mem _ _ _).mp this with h0 | ⟨vs, hvs⟩
        · simp at h0
        · exact (popAcc_mem _ _ _).mpr (Or.inr ⟨vs, hvs⟩)
    · simp only [hasHostPtr, List.any_cons, DPtr.isHostPtr,
        Bool.false_or]
      simpa [hasHostPtr] using hhp

theorem getElem?_append_cons_succ {α : Type} (h : List α) (x y : α)
    (t : List α) : (h ++ (x :: y :: t))[h.length + 1]? = some y := by
  have he : h ++ (x :: y :: t) = (h ++ [x]) ++ (y :: t) := by simp
  have hl : h.length + 1 = (h ++ [x]).length := by simp
  rw [he, hl, getElem?_append_cons]

theorem set_concat_length_succ {α : Type} (h : List α) (a x v : α) :
    (h ++ [a, x]).set (h.length + 1) v = h ++ [a, v] := by
  induction h with
  | nil => rfl
  | cons y t ih => simp [List.set, ih]

theorem buildConnCells_run (cells : List MC_Facet_Adjacency_Cell) :
    ∀ (s : BuildState), s.ok = allOK →
    ∃ out Δ T c',
      buildConnCells cells s =
        (some out,
         { host := s.host, ok := s.ok, heap := s.heap ++ Δ,
           trace := s.trace ++ T, counter := c' }) ∧
      List.Forall₂ (ConnCellMirrored s.heap.length (s.heap ++ Δ))
        cells out ∧
      (∀ P, goodFrom P T = true) ∧
      eventAddrLB s.heap.length T = true ∧
      (∀ b, b ∈ embeddedAddrs (BlockVals.connCells out) →
        b ∈ popAcc T []) ∧
      hasHostPtr (BlockVals.connCells out) = false := by
  induction cells with
  | nil =>
    intro s hok
    refine ⟨[], [], [], s.counter, ?_, List.Forall₂.nil, ?_, ?_, ?_, ?_⟩
    · simp [buildConnCells]
    · intro P
      rfl
    · rfl
    · intro b hb
      simp [embeddedAddrs] at hb
    · rfl
  | cons c cs ih =>
    intro s hok
    have hok0 : s.ok s.counter = true := by rw [hok]; rfl
    have hok1 : s.ok (s.counter + 1) = true := by rw [hok]; rfl
    have hok2 : s.ok (s.counter + 2) = true := by rw [hok]; rfl
    have hok3 : s.ok (s.counter + 3) = true := by rw [hok]; rfl
    obtain ⟨out', Δ', T', c', heq, hfor, hgood, hlb, hpop, hhp⟩ :=
      ih { host := s.host, ok := s.ok,
           heap := s.heap ++
             [some (BlockVals.ints (c._point.take c.num_points)),
              some (BlockVals.facetAdjacencies
                (c._facet.take c.num_facets))],
           trace := s.trace ++
             [Event.alloc s.heap.length c.num_points,
              Event.copyDev s.heap.length
                (BlockVals.ints (c._point.take c.num_points)),
              Event.alloc (s.heap.length + 1) c.num_facets,
              Event.copyDev (s.heap.length + 1)
                (BlockVals.facetAdjacencies (c._facet.take c.num_facets))],
           counter := s.counter + 4 } hok
    refine ⟨{ num_points := c.num_points, num_facets := c.num_facets,
              _point := DPtr.dev s.heap.length,
              _facet := DPtr.dev (s.heap.length + 1) } :: out',
      some (BlockVals.ints (c._point.take c.num_points)) ::
        some (BlockVals.facetAdjacencies (c._facet.take c.num_facets)) ::
          Δ',
      Event.alloc s.heap.length c.num_points ::
        Event.copyDev s.heap.length
          (BlockVals.ints (c._point.take c.num_points)) ::
          Event.alloc (s.heap.length + 1) c.num_facets ::
            Event.copyDev (s.heap.length + 1)
              (BlockVals.facetAdjacencies (c._facet.take c.num_facets)) ::
              T', c', ?_, ?_, ?_, ?_, ?_, ?_⟩
    · rw [buildConnCells]
      simp only [BuildM.bind_apply, mallocDev, memcpyDev, hok0, hok1, hok2,
        hok3, if_true, set_concat_length, List.append_assoc,
        List.cons_append, List.nil_append, List.length_append,
        List.length_cons, List.length_nil, Nat.zero_add,
        set_concat_length_succ]
      rw [heq]
      simp [List.append_assoc]
    · constructor
      · refine ⟨rfl, rfl, ?_, ?_⟩
        · exact ⟨s.heap.length, le_refl _, rfl, getElem?_append_cons _ _ _⟩
        · exact ⟨s.heap.length + 1, Nat.le_succ _, rfl,
            getElem?_append_cons_succ _ _ _ _⟩
      · have hheap : (s.heap ++
            [some (BlockVals.ints (c._point.take c.num_points)),
             some (BlockVals.facetAdjacencies
               (c._facet.take c.num_facets))]) ++ Δ' = s.heap ++
              (some (BlockVals.ints (c._point.take c.num_points)) ::
                some (BlockVals.facetAdjacencies
                  (c._facet.take c.num_facets)) :: Δ') := by
          simp
        rw [hheap] at hfor
        refine hfor.imp fun _ _ hc => ?_
        refine connCellMirrored_mono ?_ (preservesAbove_refl _ _) hc
        simp
    · intro P
      rw [goodFrom, goodFrom, goodFrom, goodFrom]
      simp only [embeddedAddrs, List.all_nil, hasHostPtr, Bool.not_false,
        Bool.true_and]
      exact hgood _
    · rw [eventAddrLB, eventAddrLB, eventAddrLB, eventAddrLB]
      simp only [decide_eq_true_eq, Bool.and_eq_true]
      simp only [List.length_append, List.length_cons,
        List.length_nil] at hlb
      refine ⟨le_refl _, le_refl _, Nat.le_succ _, Nat.le_succ _, ?_⟩
      refine eventAddrLB_mono T' ?_ hlb
      omega
    · intro b hb
      simp only [embeddedAddrs, List.flatMap_cons, DPtr.devAddrs,
        List.cons_append, List.nil_append, List.mem_cons,
        List.append_assoc] at hb
      rw [popAcc, popAcc, popAcc, popAcc]
      rcases hb with hb | hb | hb
      · subst hb
        exact (popAcc_mem _ _ _).mpr (Or.inl (by simp))
      · subst hb
        exact (popAcc_mem _ _ _).mpr (Or.inl (by simp))
      · have := hpop b (by simpa [embeddedAddrs] using hb)
        rcases (popAcc_mem _ _ _).mp this with h0 | ⟨vs, hvs⟩
        · simp at h0
        · exact (popAcc_mem _ _ _).mpr (Or.inr ⟨vs, hvs⟩)
    · simp only [hasHostPtr, List.any_cons, DPtr.isHostPtr,
        Bool.false_or]
      simpa [hasHostPtr] using hhp

theorem buildGeomCells_run (cells : List MC_Facet_Geometry_Cell) :
    ∀ (s : BuildState), s.ok = allOK →
    ∃ out Δ T c',
      buildGeomCells cells s =
        (some out,
         { host := s.host, ok := s.ok, heap := s.heap ++ Δ,
           trace := s.trace ++ T, counter := c' }) ∧
      List.Forall₂ (GeomCellMirrored s.heap.length (s.heap ++ Δ))
        cells out ∧
      (∀ P, goodFrom P T = true) ∧
      eventAddrLB s.heap.length T = true ∧
      (∀ b, b ∈ embeddedAddrs (BlockVals.geomCells out) →
        b ∈ popAcc T []) ∧
      hasHostPtr (BlockVals.geomCells out) = false := by
  induction cells with
  | nil =>
    intro s hok
    refine ⟨[], [], [], s.counter, ?_, List.Forall₂.nil, ?_, ?_, ?_, ?_⟩
    · simp [buildGeomCells]
    · intro P
      rfl
    · rfl
    · intro b hb
      simp [embeddedAddrs] at hb
    · rfl
  | cons c cs ih =>
    intro s hok
    have hok0 : s.ok s.counter = true := by rw [hok]; rfl
    have hok1 : s.ok (s.counter + 1) = true := by rw [hok]; rfl
    obtain ⟨out', Δ', T', c', heq, hfor, hgood, hlb, hpop, hhp⟩ :=
      ih { host := s.host, ok := s.ok,
           heap := s.heap ++
             [some (BlockVals.planes (c._facet.take c._size))],
           trace := s.trace ++
             [Event.alloc s.heap.length c._size,
              Event.copyDev s.heap.length
                (BlockVals.planes (c._facet.take c._size))],
           counter := s.counter + 2 } hok
    refine ⟨{ _size := c._size, _facet := DPtr.dev s.heap.length } :: out',
      some (BlockVals.planes (c._facet.take c._size)) :: Δ',
      Event.alloc s.heap.length c._size ::
        Event.copyDev s.heap.length
          (BlockVals.planes (c._facet.take c._size)) :: T',
      c', ?_, ?_, ?_, ?_, ?_, ?_⟩
    · rw [buildGeomCells]
      simp only [BuildM.bind_apply, mallocDev, memcpyDev, hok0, hok1,
        if_true, set_concat_length, List.append_assoc, List.cons_append,
        List.nil_append]
      rw [heq]
      simp [List.append_assoc]
    · constructor
      · exact ⟨rfl, s.heap.length, le_refl _, rfl, getElem?_append_cons _ _ _⟩
      · have hheap : (s.heap ++
            [some (BlockVals.planes (c._facet.take c._size))]) ++ Δ' =
              s.heap ++
                (some (BlockVals.planes (c._facet.take c._size)) :: Δ') := by
          simp
        rw [hheap] at hfor
        refine hfor.imp fun _ _ hc => ?_
        refine geomCellMirrored_mono ?_ (preservesAbove_refl _ _) hc
        simp
    · intro P
      rw [goodFrom, goodFrom]
      simp only [embeddedAddrs, List.all_nil, hasHostPtr, Bool.not_false,
        Bool.true_and]
      exact hgood _
    · rw [eventAddrLB, eventAddrLB]
      simp only [decide_eq_true_eq, Bool.and_eq_true]
      simp only [List.length_append, List.length_cons,
        List.length_nil] at hlb
      exact ⟨le_refl _, le_refl _, eventAddrLB_mono T' (Nat.le_succ _) hlb⟩
    · intro b hb
      simp only [embeddedAddrs, List.flatMap_cons, DPtr.devAddrs,
        List.cons_append, List.nil_append, List.mem_cons] at hb
      rw [popAcc, popAcc]
      rcases hb with hb | hb
      · subst hb
        exact (popAcc_mem _ _ _).mpr (Or.inl (by simp))
      · have := hpop b (by simpa [embeddedAddrs] using hb)
        rcases (popAcc_mem _ _ _).mp this with h0 | ⟨vs, hvs⟩
        · simp at h0
        · exact (popAcc_mem _ _ _).mpr (Or.inr ⟨vs, hvs⟩)
    · simp only [hasHostPtr, List.any_cons, DPtr.isHostPtr,
        Bool.false_or]
      simpa [hasHostPtr] using hhp

theorem goodFrom_append_true {T1 T2 : List Event} {P : List Nat}
    (h1 : goodFrom P T1 = true) (h2 : goodFrom (popAcc T1 P) T2 = true) :
    goodFrom P (T1 ++ T2) = true := by
  rw [goodFrom_append, h1, h2]
  rfl

theorem goodFrom_alloc_cons {a n : Nat} {T : List Event} {P : List Nat}
    (h : goodFrom P T = true) :
    goodFrom P (Event.alloc a n :: T) = true := h

theorem goodFrom_copyHost_cons {T : List Event} {P : List Nat}
    (h : goodFrom P T = true) :
    goodFrom P (Event.copyHost :: T) = true := h

theorem goodFrom_copyDev_cons {a : Nat} {vs : BlockVals} {T : List Event}
    {P : List Nat} (hemb : ∀ b, b ∈ embeddedAddrs vs → b ∈ P)
    (hh : hasHostPtr vs = false) (h : goodFrom (a :: P) T = true) :
    goodFrom P (Event.copyDev a vs :: T) = true := by
  rw [goodFrom, hh, h]
  simp only [Bool.not_false, Bool.and_true]
  rw [List.all_eq_true]
  intro b hb
  exact decide_eq_true (hemb b hb)

theorem mem_popAcc_of_copyDev {b : Nat} {T : List Event} (vs : BlockVals)
    (P : List Nat) (h : Event.copyDev b vs ∈ T) : b ∈ popAcc T P :=
  (popAcc_mem _ _ _).mpr (Or.inr ⟨vs, h⟩)

theorem mem_popAcc_of_init {b : Nat} {P : List Nat} (T : List Event)
    (h : b ∈ P) : b ∈ popAcc T P :=
  (popAcc_mem _ _ _).mpr (Or.inl h)

theorem mem_popAcc_lift {b : Nat} {T : List Event} (P : List Nat)
    (h : b ∈ popAcc T []) : b ∈ popAcc T P := by
  rcases (popAcc_mem _ _ _).mp h with h0 | ⟨vs, hvs⟩
  · simp at h0
  · exact mem_popAcc_of_copyDev vs P hvs

theorem bind_run {α β : Type} {m : BuildM α} {a : α} {s s' : BuildState}
    (h : m s = (some a, s')) (f : α → BuildM β) : (m >>= f) s = f a s' := by
  simp [BuildM.bind_apply, h]

theorem blockAt_of_append {n : Nat} {L pre : DevHeap} {v : BlockVals}
    (hn : n ≤ pre.length) (hsplit : ∃ suf, L = pre ++ (some v :: suf)) :
    BlockAt n L (DPtr.dev pre.length) v := by
  obtain ⟨suf, rfl⟩ := hsplit
  exact ⟨pre.length, hn, rfl, getElem?_append_cons _ _ _⟩

theorem preservesAbove_split {n : Nat} {h L : DevHeap}
    (hsplit : ∃ Δ, L = h ++ Δ) : PreservesAbove n h L := by
  obtain ⟨Δ, rfl⟩ := hsplit
  exact preservesAbove_append n h Δ

theorem allocCopy_run {β : Type} (n : Nat) (vs : Nat → BlockVals)
    (k : Nat → BuildM β) (s : BuildState) (hok : s.ok = allOK) :
    (mallocDev n >>= fun a => memcpyDev a (vs a) >>= fun _ => k a) s =
      k s.heap.length
        { host := s.host, ok := s.ok,
          heap := s.heap ++ [some (vs s.heap.length)],
          trace := s.trace ++ [Event.alloc s.heap.length n,
            Event.copyDev s.heap.length (vs s.heap.length)],
          counter := s.counter + 2 } := by
  have h0 : s.ok s.counter = true := by rw [hok]; rfl
  have h1 : s.ok (s.counter + 1) = true := by rw [hok]; rfl
  simp [BuildM.bind_apply, mallocDev, memcpyDev, h0, h1, set_concat_length]

theorem copyOneDomain_run (G : Nat) (dom : MC_Domain) (s : BuildState)
    (hok : s.ok = allOK) :
    ∃ d Δ T c',
      copyOneDomain G dom s =
        (some d,
         { host := s.host, ok := s.ok, heap := s.heap ++ Δ,
           trace := s.trace ++ T, counter := c' }) ∧
      DomainMirrored G s.heap.length (s.heap ++ Δ) dom d ∧
      (∀ P, goodFrom P T = true) ∧
      eventAddrLB s.heap.length T = true ∧
      (∀ b, b ∈ embeddedAddrs (BlockVals.domains [d]) → b ∈ popAcc T []) ∧
      hasHostPtr (BlockVals.domains [d]) = false := by
  have hA : memcpyHost s = (some (),
      { host := s.host, ok := s.ok, heap := s.heap,
        trace := s.trace ++ [Event.copyHost],
        counter := s.counter + 1 }) := by
    have h0 : s.ok s.counter = true := by rw [hok]; rfl
    simp [memcpyHost, h0]
  obtain ⟨outP, ΔP, TP, cP, hp, hforP, hgoodP, hlbP, hpopP, hhpP⟩ :=
    patchCellStates_run G dom.cell_state
      { host := s.host, ok := s.ok, heap := s.heap,
        trace := s.trace ++ [Event.copyHost],
        counter := s.counter + 1 } hok
  obtain ⟨outC, ΔC, TC, cC, hc, hforC, hgoodC, hlbC, hpopC, hhpC⟩ :=
    buildConnCells_run dom.mesh._cellConnectivity
      { host := s.host, ok := allOK,
        heap :=
          s.heap ++ ΔP ++ [some (BlockVals.cellStates outP)] ++
            [some (BlockVals.ints dom.mesh._nbrRank)] ++
            [some (BlockVals.vectors dom.mesh._node)],
        trace :=
          s.trace ++ [Event.copyHost] ++ TP ++
                [Event.alloc (List.length (s.heap ++ ΔP)) dom.cell_state.length,
                  Event.copyDev (List.length (s.heap ++ ΔP)) (BlockVals.cellStates outP)] ++
              [Event.alloc (List.length (s.heap ++ ΔP ++ [some (BlockVals.cellStates outP)])) dom.mesh._nbrRank.length,
                Event.copyDev (List.length (s.heap ++ ΔP ++ [some (BlockVals.cellStates outP)]))
                  (BlockVals.ints dom.mesh._nbrRank)] ++
            [Event.alloc
                (List.length
                  (s.heap ++ ΔP ++ [some (BlockVals.cellStates outP)] ++ [some (BlockVals.ints dom.mesh._nbrRank)]))
                dom.mesh._node.length,
              Event.copyDev
                (List.length
                  (s.heap ++ ΔP ++ [some (BlockVals.cellStates outP)] ++ [some (BlockVals.ints dom.mesh._nbrRank)]))
                (BlockVals.vectors dom.mesh._node)],
        counter := cP + 2 + 2 + 2 } rfl
  obtain ⟨outG, ΔG, TG, cG, hg, hforG, hgoodG, hlbG, hpopG, hhpG⟩ :=
    buildGeomCells_run dom.mesh._cellGeometry
      { host := s.host, ok := allOK,
        heap :=
          s.heap ++ ΔP ++ [some (BlockVals.cellStates outP)] ++
            [some (BlockVals.ints dom.mesh._nbrRank)] ++
            [some (BlockVals.vectors dom.mesh._node)] ++ ΔC ++
            [some (BlockVals.connCells outC)],
        trace :=
          s.trace ++ [Event.copyHost] ++ TP ++
                [Event.alloc (List.length (s.heap ++ ΔP)) dom.cell_state.length,
                  Event.copyDev (List.length (s.heap ++ ΔP)) (BlockVals.cellStates outP)] ++
              [Event.alloc (List.length (s.heap ++ ΔP ++ [some (BlockVals.cellStates outP)])) dom.mesh._nbrRank.length,
                Event.copyDev (List.length (s.heap ++ ΔP ++ [some (BlockVals.cellStates outP)]))
                  (BlockVals.ints dom.mesh._nbrRank)] ++
            [Event.alloc
                (List.length
                  (s.heap ++ ΔP ++ [some (BlockVals.cellStates outP)] ++ [some (BlockVals.ints dom.mesh._nbrRank)]))
                dom.mesh._node.length,
              Event.copyDev
                (List.length
                  (s.heap ++ ΔP ++ [some (BlockVals.cellStates outP)] ++ [some (BlockVals.ints dom.mesh._nbrRank)]))
                (BlockVals.vectors dom.mesh._node)] ++ TC ++
            [Event.alloc
                (List.length
                  (s.heap ++ ΔP ++ [some (BlockVals.cellStates outP)] ++ [some (BlockVals.ints dom.mesh._nbrRank)] ++
                    [some (BlockVals.vectors dom.mesh._node)] ++ ΔC))
                dom.mesh._cellConnectivity.length,
              Event.copyDev
                (List.length
                  (s.heap ++ ΔP ++ [some (BlockVals.cellStates outP)] ++ [some (BlockVals.ints dom.mesh._nbrRank)] ++
                    [some (BlockVals.vectors dom.mesh._node)] ++ ΔC))
                (BlockVals.connCells outC)],
        counter := cC + 2 } rfl
  apply Exists.intro
  apply Exists.intro
  apply Exists.intro
  apply Exists.intro
  refine ⟨?eq, ?mir, ?good, ?lb, ?pop, ?hhp⟩
  case eq =>
    unfold copyOneDomain
    rw [bind_run hA]
    rw [bind_run hp]
    simp only [allocCopy_run, hok]
    rw [bind_run hc]
    simp only [allocCopy_run, hok]
    rw [bind_run hg]
    simp only [allocCopy_run, hok]
    simp only [BuildM.pure_apply]
    simp only [List.append_assoc]
    rfl
  case mir =>
    refine ⟨rfl, rfl, rfl, rfl, rfl, rfl, rfl, rfl, ?_, ?_, ?_, ?_, ?_⟩
    · refine ⟨outP, blockAt_of_append (by simp) ⟨_, by simp; try rfl⟩, ?_⟩
      refine hforP.imp fun _ _ hcell => ?_
      exact cellStateMirrored_mono (le_refl _)
        (preservesAbove_split ⟨_, by simp; try rfl⟩) hcell
    · exact blockAt_of_append (by simp) ⟨_, by simp; try rfl⟩
    · exact blockAt_of_append (by simp) ⟨_, by simp; try rfl⟩
    · refine ⟨outC, blockAt_of_append (by simp) ⟨_, by simp; try rfl⟩, ?_⟩
      refine hforC.imp fun _ _ hcell => ?_
      refine connCellMirrored_mono ?_ (preservesAbove_split ⟨_, by simp; try rfl⟩) hcell
      simp only [List.length_append]
      omega
    · refine ⟨outG, blockAt_of_append (by simp) ⟨_, by simp; try rfl⟩, ?_⟩
      refine hforG.imp fun _ _ hcell => ?_
      refine geomCellMirrored_mono ?_ (preservesAbove_split ⟨_, by simp; try rfl⟩) hcell
      simp only [List.length_append]
      omega
  case good =>
    intro P
    simp only [List.cons_append, List.nil_append]
    apply goodFrom_copyHost_cons
    apply goodFrom_append_true (hgoodP P)
    apply goodFrom_alloc_cons
    apply goodFrom_copyDev_cons
      (fun b hb => mem_popAcc_lift _ (hpopP b hb)) hhpP
    apply goodFrom_alloc_cons
    apply goodFrom_copyDev_cons
      (fun b hb => by simp [embeddedAddrs] at hb) (by rfl)
    apply goodFrom_alloc_cons
    apply goodFrom_copyDev_cons
      (fun b hb => by simp [embeddedAddrs] at hb) (by rfl)
    apply goodFrom_append_true (hgoodC _)
    apply goodFrom_alloc_cons
    apply goodFrom_copyDev_cons
      (fun b hb => mem_popAcc_lift _ (hpopC b hb)) hhpC
    apply goodFrom_append_true (hgoodG _)
    apply goodFrom_alloc_cons
    apply goodFrom_copyDev_cons
      (fun b hb => mem_popAcc_lift _ (hpopG b hb)) hhpG
    rfl
  case lb =>
    simp only [List.cons_append, List.nil_append, List.append_eq,
      eventAddrLB, eventAddrLB_append, Bool.and_eq_true,
      decide_eq_true_eq]
    repeat' apply And.intro
    all_goals first
      | exact hlbP
      | (refine eventAddrLB_mono TC ?_ hlbC
         simp only [List.length_append]
         omega)
      | (refine eventAddrLB_mono TG ?_ hlbG
         simp only [List.length_append]
         omega)
      | (simp only [List.length_append]; omega)
      | (simp only [List.length_append])
  case pop =>
    intro b hb
    simp only [embeddedAddrs, List.flatMap_cons, List.flatMap_nil,
      DPtr.devAddrs, List.append_nil, List.cons_append, List.nil_append,
      List.mem_cons, List.not_mem_nil, or_false] at hb
    rcases hb with rfl | rfl | rfl | rfl | rfl
    · exact mem_popAcc_of_copyDev (BlockVals.cellStates outP) [] (by simp)
    · exact mem_popAcc_of_copyDev (BlockVals.ints dom.mesh._nbrRank) []
        (by simp)
    · exact mem_popAcc_of_copyDev (BlockVals.vectors dom.mesh._node) []
        (by simp)
    · exact mem_popAcc_of_copyDev (BlockVals.connCells outC) [] (by simp)
    · exact mem_popAcc_of_copyDev (BlockVals.geomCells outG) [] (by simp)
  case hhp => rfl

theorem forEachDomain_run (G : Nat) (doms : List MC_Domain) :
    ∀ (s : BuildState), s.ok = allOK →
    ∃ out Δ T c',
      forEachDomain G doms s =
        (some out,
         { host := s.host, ok := s.ok, heap := s.heap ++ Δ,
           trace := s.trace ++ T, counter := c' }) ∧
      List.Forall₂ (DomainMirrored G s.heap.length (s.heap ++ Δ))
        doms out ∧
      (∀ P, goodFrom P T = true) ∧
      eventAddrLB s.heap.length T = true ∧
      (∀ b, b ∈ embeddedAddrs (BlockVals.domains out) → b ∈ popAcc T []) ∧
      hasHostPtr (BlockVals.domains out) = false := by
  induction doms with
  | nil =>
    intro s hok
    refine ⟨[], [], [], s.counter, ?_, List.Forall₂.nil, ?_, ?_, ?_, ?_⟩
    · simp [forEachDomain]
    · intro P
      rfl
    · rfl
    · intro b hb
      simp [embeddedAddrs] at hb
    · rfl
  | cons d ds ih =>
    intro s hok
    obtain ⟨dd, Δ1, T1, c1, h1, hmir1, hgood1, hlb1, hpop1, hhp1⟩ :=
      copyOneDomain_run G d s hok
    obtain ⟨out2, Δ2, T2, c2, h2, hmir2, hgood2, hlb2, hpop2, hhp2⟩ :=
      ih { host := s.host, ok := s.ok, heap := s.heap ++ Δ1,
           trace := s.trace ++ T1, counter := c1 } hok
    apply Exists.intro
    apply Exists.intro
    apply Exists.intro
    apply Exists.intro
    refine ⟨?eq, ?mir, ?good, ?lb, ?pop, ?hhp⟩
    case eq =>
      rw [forEachDomain]
      rw [bind_run h1]
      rw [bind_run h2]
      simp only [BuildM.pure_apply, List.append_assoc]
      rfl
    case mir =>
      constructor
      · exact domainMirrored_mono (le_refl _)
          (preservesAbove_split ⟨_, by simp; try rfl⟩) hmir1
      · refine hmir2.imp fun _ _ hdm => ?_
        refine domainMirrored_mono ?_ (preservesAbove_split ⟨[], by simp⟩)
          hdm
        simp
    case good =>
      intro P
      exact goodFrom_append_true (hgood1 P) (hgood2 _)
    case lb =>
      rw [eventAddrLB_append]
      simp only [Bool.and_eq_true]
      refine ⟨hlb1, ?_⟩
      refine eventAddrLB_mono T2 ?_ hlb2
      simp
    case pop =>
      intro b hb
      simp only [embeddedAddrs, List.flatMap_cons, List.mem_append] at hb
      rcases hb with hb | hb
      · have := hpop1 b (by
          simp only [embeddedAddrs, List.flatMap_cons, List.flatMap_nil,
            List.append_nil, List.mem_append]
          exact hb)
        rcases (popAcc_mem _ _ _).mp this with h0 | ⟨vs, hvs⟩
        · simp at h0
        · exact mem_popAcc_of_copyDev vs []
            (List.mem_append.mpr (Or.inl hvs))
      · have := hpop2 b (by simpa [embeddedAddrs] using hb)
        rcases (popAcc_mem _ _ _).mp this with h0 | ⟨vs, hvs⟩
        · simp at h0
        · exact mem_popAcc_of_copyDev vs []
            (List.mem_append.mpr (Or.inr hvs))
    case hhp =>
      simp only [hasHostPtr, List.any_cons, Bool.or_eq_false_iff]
      constructor
      · have := hhp1
        simp only [hasHostPtr, List.any_cons, List.any_nil,
          Bool.or_false, Bool.or_eq_false_iff] at this
        exact this
      · have := hhp2
        simp only [hasHostPtr] at this
        exact this

theorem copyDomainDevice_run (G domain_d : Nat) (s : BuildState)
    (hok : s.ok = allOK) :
    ∃ out Δ T c',
      copyDomainDevice G domain_d s =
        (some s.host.length,
         { host := s.host, ok := s.ok,
           heap := (s.heap ++ Δ).set domain_d
             (some (BlockVals.domains out)),
           trace := s.trace ++ T ++
             [Event.copyDev domain_d (BlockVals.domains out)],
           counter := c' }) ∧
      List.Forall₂ (DomainMirrored G s.heap.length (s.heap ++ Δ))
        s.host out ∧
      (∀ P, goodFrom P T = true) ∧
      eventAddrLB s.heap.length T = true ∧
      goodFrom [] (T ++ [Event.copyDev domain_d (BlockVals.domains out)])
        = true := by
  obtain ⟨out, Δ, T, c', hF, hmir, hgood, hlb, hpop, hhp⟩ :=
    forEachDomain_run G s.host s hok
  have hG : getHostDomains s = (some s.host, s) := rfl
  have hokc : s.ok c' = true := by rw [hok]; rfl
  have hM : memcpyDev domain_d (BlockVals.domains out)
      { host := s.host, ok := s.ok, heap := s.heap ++ Δ,
        trace := s.trace ++ T, counter := c' } =
      (some (),
       { host := s.host, ok := s.ok,
         heap := (s.heap ++ Δ).set domain_d
           (some (BlockVals.domains out)),
         trace := (s.trace ++ T) ++
           [Event.copyDev domain_d (BlockVals.domains out)],
         counter := c' + 1 }) := by
    simp [memcpyDev, hokc]
  refine ⟨out, Δ, T, c' + 1, ?_, hmir, hgood, hlb, ?_⟩
  · unfold copyDomainDevice
    rw [bind_run hG, bind_run hF, bind_run hM]
    simp only [BuildM.pure_apply, List.append_assoc]
  · refine goodFrom_append_true (hgood []) ?_
    refine goodFrom_copyDev_cons (fun b hb => hpop b hb) hhp rfl

theorem mapOption_eq_of_forall₂ {α β γ : Type} {R : α → β → Prop}
    {f : β → Option γ} {g : α → γ} {l1 : List α} {l2 : List β}
    (hf : List.Forall₂ R l1 l2)
    (H : ∀ a b, a ∈ l1 → R a b → f b = some (g a)) :
    mapOption f l2 = some (l1.map g) := by
  induction hf with
  | nil => rfl
  | cons hr hrest ih =>
    rename_i a b t1 t2
    have hhead := H a b (List.mem_cons_self a t1) hr
    have htail := ih fun x y hx hr' => H x y (List.mem_cons_of_mem a hx) hr'
    rw [mapOption, hhead, htail]
    rfl

theorem readCellStateView_of_mirrored {G n : Nat} {heap : DevHeap}
    {c : MC_Cell_State} {d : MC_Cell_State_dev}
    (hm : CellStateMirrored G n heap c d) (hwf : c._total.length = G) :
    readCellStateView heap G d = some (hostCellStateView G c) := by
  obtain ⟨hrest, a, hna, hpa, hget⟩ := hm
  rw [readCellStateView, hpa]
  simp [readDoubles, readBlock, hget, List.length_take, hwf,
    hostCellStateView, hrest]

theorem readConnCellView_of_mirrored {n : Nat} {heap : DevHeap}
    {c : MC_Facet_Adjacency_Cell} {d : MC_Facet_Adjacency_Cell_dev}
    (hm : ConnCellMirrored n heap c d) (hwf : WFConnCell c) :
    readConnCellView heap d = some (hostConnCellView c) := by
  obtain ⟨hnp, hnf, ⟨a1, hna1, hp1, hg1⟩, ⟨a2, hna2, hp2, hg2⟩⟩ := hm
  obtain ⟨hwp, hwff⟩ := hwf
  rw [readConnCellView, hp1, hp2]
  simp [readInts, readFacetAdjacencies, readBlock, hg1, hg2,
    List.length_take, hnp, hnf, hostConnCellView, hwp, hwff]

theorem readGeomCellView_of_mirrored {n : Nat} {heap : DevHeap}
    {c : MC_Facet_Geometry_Cell} {d : MC_Facet_Geometry_Cell_dev}
    (hm : GeomCellMirrored n heap c d) (hwf : WFGeomCell c) :
    readGeomCellView heap d = some (hostGeomCellView c) := by
  obtain ⟨hsz, a, hna, hpa, hget⟩ := hm
  rw [readGeomCellView, hpa]
  rw [WFGeomCell] at hwf
  simp [readPlanes, readBlock, hget, List.length_take, hsz,
    hostGeomCellView, hwf]

theorem readDomainView_of_mirrored {G n : Nat} {heap : DevHeap}
    {dom : MC_Domain} {d : MC_Domain_d}
    (hm : DomainMirrored G n heap dom d) (hwf : WFDomain G dom) :
    readDomainView heap G d = some (hostDomainView G dom) := by
  obtain ⟨h1, h2, h3, h4, h5, h6, h7, h8,
    ⟨stg1, ⟨a1, hna1, hp1, hg1⟩, hf1⟩,
    ⟨a2, hna2, hp2, hg2⟩, ⟨a3, hna3, hp3, hg3⟩,
    ⟨stg2, ⟨a4, hna4, hp4, hg4⟩, hf2⟩,
    ⟨stg3, ⟨a5, hna5, hp5, hg5⟩, hf3⟩⟩ := hm
  obtain ⟨hwf1, hwf2, hwf3⟩ := hwf
  have hlen1 : stg1.length = dom.cell_state.length := hf1.length_eq.symm
  have hlen2 : stg2.length = dom.mesh._cellConnectivity.length :=
    hf2.length_eq.symm
  have hlen3 : stg3.length = dom.mesh._cellGeometry.length :=
    hf3.length_eq.symm
  have hcs : readCellStates heap d.cell_state d.cell_stateSize =
      some stg1 := by
    rw [hp1]
    simp [readCellStates, readBlock, hg1, h3, hlen1]
  have hmap1 : mapOption (readCellStateView heap G) stg1 =
      some (dom.cell_state.map (hostCellStateView G)) :=
    mapOption_eq_of_forall₂ hf1 fun c e hc hr =>
      readCellStateView_of_mirrored hr (hwf1 c hc)
  have hnbr : readInts heap d.mesh._nbrRank d.mesh._nbrRankSize =
      some dom.mesh._nbrRank := by
    rw [hp2]
    simp [readInts, readBlock, hg2, h5]
  have hnode : readVectors heap d.mesh._node d.mesh._nodeSize =
      some dom.mesh._node := by
    rw [hp3]
    simp [readVectors, readBlock, hg3, h6]
  have hcc : readConnCells heap d.mesh._cellConnectivity
      d.mesh._cellConnectivitySize = some stg2 := by
    rw [hp4]
    simp [readConnCells, readBlock, hg4, h7, hlen2]
  have hmap2 : mapOption (readConnCellView heap) stg2 =
      some (dom.mesh._cellConnectivity.map hostConnCellView) :=
    mapOption_eq_of_forall₂ hf2 fun c e hc hr =>
      readConnCellView_of_mirrored hr (hwf2 c hc)
  have hcg : readGeomCells heap d.mesh._cellGeometry
      d.mesh._cellGeometrySize = some stg3 := by
    rw [hp5]
    simp [readGeomCells, readBlock, hg5, h8, hlen3]
  have hmap3 : mapOption (readGeomCellView heap) stg3 =
      some (dom.mesh._cellGeometry.map hostGeomCellView) :=
    mapOption_eq_of_forall₂ hf3 fun c e hc hr =>
      readGeomCellView_of_mirrored hr (hwf3 c hc)
  rw [readDomainView]
  simp [hcs, hmap1, hnbr, hnode, hcc, hmap2, hcg, hmap3, hostDomainView,
    h1, h2, h4]

theorem copyDomainDevice_roundTrip (G domain_d : Nat) (s : BuildState)
    (hok : s.ok = allOK) (hdd : domain_d < s.heap.length)
    (hwf : WFHost G s.host) :
    (copyDomainDevice G domain_d s).1 = some s.host.length ∧
    readMirror (copyDomainDevice G domain_d s).2.heap G domain_d
      s.host.length = some (s.host.map (hostDomainView G)) := by
  obtain ⟨out, Δ, T, c', heq, hmir, hgood, hlb, hgall⟩ :=
    copyDomainDevice_run G domain_d s hok
  rw [heq]
  refine ⟨rfl, ?_⟩
  have hddΔ : domain_d < (s.heap ++ Δ).length := by
    simp only [List.length_append]
    omega
  have hmir2 : List.Forall₂
      (DomainMirrored G s.heap.length
        ((s.heap ++ Δ).set domain_d (some (BlockVals.domains out))))
      s.host out :=
    hmir.imp fun _ _ hdm =>
      domainMirrored_mono (le_refl _)
        (preservesAbove_set s.heap.length (s.heap ++ Δ) domain_d _ hdd)
        hdm
  have hlen : out.length = s.host.length := hmir.length_eq.symm
  have hget : ((s.heap ++ Δ).set domain_d
      (some (BlockVals.domains out)))[domain_d]? =
      some (some (BlockVals.domains out)) := by
    rw [List.getElem?_set_self]
    simp only [List.length_append] at hddΔ
    simp [hddΔ]
  have hrd : readDomains
      ((s.heap ++ Δ).set domain_d (some (BlockVals.domains out)))
      (DPtr.dev domain_d) s.host.length = some out := by
    simp [readDomains, readBlock, hget, hlen]
  rw [readMirror]
  simp only [hrd, Option.bind_eq_bind, Option.some_bind]
  exact mapOption_eq_of_forall₂ hmir2 fun dom dd hdom hr =>
    readDomainView_of_mirrored hr (hwf dom hdom)

/-- C1: For every host domain sequence and every numEnergyGroups (with the
spec's input invariants: declared per-cell counts match the arrays and
every cross-section array has numEnergyGroups entries), after
`copyDomainDevice` completes, copying every leaf array, scalar and count
back from the target space yields exactly the host data, cell index order
preserved (the read-back mirror equals the host-induced view,
domain-by-domain and cell-by-cell). -/
theorem claim_C1_mirror_roundtrip_exact (G domain_d : Nat)
    (s : BuildState) (hok : s.ok = allOK)
    (hdd : domain_d < s.heap.length) (hwf : WFHost G s.host) :
    (copyDomainDevice G domain_d s).1 = some s.host.length ∧
    readMirror (copyDomainDevice G domain_d s).2.heap G domain_d
      s.host.length = some (s.host.map (hostDomainView G)) :=
  copyDomainDevice_roundTrip G domain_d s hok hdd hwf

/-- C4: every target-space allocation and copy is a checked fallible
operation (modelled from the spec: `safeCall` terminates the build); when
the build aborts (returns no mirror), the operation at the final counter
is the first oracle failure, every earlier operation succeeded, and
exactly those earlier operations were performed (one trace event each) —
nothing runs past the first failure. -/
theorem claim_C4_failfast_abort (G domain_d : Nat) (s : BuildState)
    (hfail : (copyDomainDevice G domain_d s).1 = none) :
    s.ok ((copyDomainDevice G domain_d s).2.counter) = false ∧
    (∀ j, s.counter ≤ j → j < (copyDomainDevice G domain_d s).2.counter →
      s.ok j = true) ∧
    (copyDomainDevice G domain_d s).2.trace.length + s.counter =
      s.trace.length + (copyDomainDevice G domain_d s).2.counter := by
  obtain ⟨⟨-, -, -, htr, hoks⟩, hf⟩ :=
    (okSpec_copyDomainDevice G domain_d) s
  exact ⟨hf hfail, hoks, htr⟩

/-- C5: bottom-up ordering invariant — in the trace of a successful build,
every device copy writes only bytes whose embedded addresses point to
target-space blocks whose own population has already completed, and never
writes a host address into target space. -/
theorem claim_C5_bottom_up_order (G domain_d : Nat) (s : BuildState)
    (hok : s.ok = allOK) (htr : s.trace = []) :
    goodFrom [] (copyDomainDevice G domain_d s).2.trace = true := by
  obtain ⟨out, Δ, T, c', heq, hmir, hgood, hlb, hgall⟩ :=
    copyDomainDevice_run G domain_d s hok
  rw [heq]
  simp only [htr, List.nil_append]
  exact hgall

/-- C7: frame property — `copyDomainDevice` never mutates the host domain
model: the host component of the state is unchanged by the build, for
every input and every oracle. -/
theorem claim_C7_host_not_mutated (G domain_d : Nat) (s : BuildState) :
    (copyDomainDevice G domain_d s).2.host = s.host :=
  ((okSpec_copyDomainDevice G domain_d) s).1.1

/-- C8: two-run structural determinism — two builds from the same frozen
host input (arbitrary, possibly different initial target heaps and
destinations, so all addresses may differ) read back as the same
address-free structure: both mirrors equal the host-induced view. -/
theorem claim_C8_two_run_determinism (G dd1 dd2 : Nat)
    (s1 s2 : BuildState) (hhost : s1.host = s2.host)
    (hok1 : s1.ok = allOK) (hok2 : s2.ok = allOK)
    (h1 : dd1 < s1.heap.length) (h2 : dd2 < s2.heap.length)
    (hwf : WFHost G s1.host) :
    readMirror (copyDomainDevice G dd1 s1).2.heap G dd1
      s1.host.length =
    readMirror (copyDomainDevice G dd2 s2).2.heap G dd2
      s2.host.length ∧
    readMirror (copyDomainDevice G dd1 s1).2.heap G dd1
      s1.host.length = some (s1.host.map (hostDomainView G)) := by
  have r1 := (copyDomainDevice_roundTrip G dd1 s1 hok1 h1 hwf).2
  have hwf2 : WFHost G s2.host := by rw [← hhost]; exact hwf
  have r2 := (copyDomainDevice_roundTrip G dd2 s2 hok2 h2 hwf2).2
  rw [r1, r2, hhost]
  exact ⟨rfl, by rw [← hhost]⟩

theorem copyDomainDevice_readDomains (G domain_d : Nat) (s : BuildState)
    (hok : s.ok = allOK) (hdd : domain_d < s.heap.length) :
    ∃ out,
      (copyDomainDevice G domain_d s).1 = some s.host.length ∧
      readDomains (copyDomainDevice G domain_d s).2.heap
        (DPtr.dev domain_d) s.host.length = some out ∧
      List.Forall₂
        (DomainMirrored G s.heap.length
          (copyDomainDevice G domain_d s).2.heap) s.host out := by
  obtain ⟨out, Δ, T, c', heq, hmir, hgood, hlb, hgall⟩ :=
    copyDomainDevice_run G domain_d s hok
  have hddΔ : domain_d < (s.heap ++ Δ).length := by
    simp only [List.length_append]
    omega
  have hmir2 : List.Forall₂
      (DomainMirrored G s.heap.length
        ((s.heap ++ Δ).set domain_d (some (BlockVals.domains out))))
      s.host out :=
    hmir.imp fun _ _ hdm =>
      domainMirrored_mono (le_refl _)
        (preservesAbove_set s.heap.length (s.heap ++ Δ) domain_d _ hdd)
        hdm
  have hlen : out.length = s.host.length := hmir.length_eq.symm
  have hget : ((s.heap ++ Δ).set domain_d
      (some (BlockVals.domains out)))[domain_d]? =
      some (some (BlockVals.domains out)) := by
    rw [List.getElem?_set_self]
    simp only [List.length_append] at hddΔ
    simp [hddΔ]
  have hrd : readDomains
      ((s.heap ++ Δ).set domain_d (some (BlockVals.domains out)))
      (DPtr.dev domain_d) s.host.length = some out := by
    simp [readDomains, readBlock, hget, hlen]
  rw [heq]
  exact ⟨out, rfl, hrd, hmir2⟩

/-- C6: degenerate inputs — an empty domain sequence still completes
without error, yielding count 0; and a domain with zero cells yields a
mirror whose cell-state, connectivity and geometry arrays record count
zero, without failing. -/
theorem claim_C6_degenerate_inputs (G domain_d : Nat) (s : BuildState) :
    (s.ok = allOK → s.host = [] →
      (copyDomainDevice G domain_d s).1 = some 0) ∧
    (∀ dom, s.ok = allOK → domain_d < s.heap.length → s.host = [dom] →
      dom.cell_state = [] → dom.mesh._cellConnectivity = [] →
      dom.mesh._cellGeometry = [] →
      (copyDomainDevice G domain_d s).1 = some 1 ∧
      ∃ d, readDomains (copyDomainDevice G domain_d s).2.heap
          (DPtr.dev domain_d) 1 = some [d] ∧
        d.cell_stateSize = 0 ∧ d.mesh._cellConnectivitySize = 0 ∧
        d.mesh._cellGeometrySize = 0) := by
  constructor
  · intro hok hempty
    obtain ⟨out, Δ, T, c', heq, -⟩ := copyDomainDevice_run G domain_d s hok
    rw [heq, hempty]
    rfl
  · intro dom hok hdd hone hcs hcc hcg
    obtain ⟨out, hres, hrd, hmir⟩ :=
      copyDomainDevice_readDomains G domain_d s hok hdd
    rw [hone] at hmir hrd hres
    cases hmir with
    | cons hr ht =>
      cases ht
      rename_i d
      obtain ⟨-, -, h3, -, -, -, h7, h8, -⟩ := hr
      refine ⟨by simpa using hres, d, by simpa using hrd, ?_, ?_, ?_⟩
      · rw [h3, hcs]
        rfl
      · rw [h7, hcc]
        rfl
      · rw [h8, hcg]
        rfl

theorem not_copyDev_mem_of_lt {n a : Nat} {vs : BlockVals}
    (T : List Event) (h : eventAddrLB n T = true) (ha : a < n) :
    Event.copyDev a vs ∉ T := by
  induction T with
  | nil => simp
  | cons e t ih =>
    cases e with
    | alloc b k =>
      rw [eventAddrLB] at h
      simp only [Bool.and_eq_true, decide_eq_true_eq] at h
      simp only [List.mem_cons]
      rintro (hc | hc)
      · exact absurd hc (by simp)
      · exact ih h.2 hc
    | copyHost =>
      simp only [List.mem_cons]
      rintro (hc | hc)
      · exact absurd hc (by simp)
      · exact ih h hc
    | copyDev b vs' =>
      rw [eventAddrLB] at h
      simp only [Bool.and_eq_true, decide_eq_true_eq] at h
      simp only [List.mem_cons]
      rintro (hc | hc)
      · rw [Event.copyDev.injEq] at hc
        omega
      · exact ih h.2 hc

/-- C3 (amended): after all domains are processed, `copyDomainDevice`
copies the fully patched staging array in a single transfer into the
caller-supplied target-space buffer `domain_d` — the final event of the
build trace, and the only transfer into that buffer — and returns the
domain count through the out-parameter; the builder does not allocate the
final descriptor-array buffer itself. -/
theorem claim_C3_amended_caller_buffer (G domain_d : Nat)
    (s : BuildState) (hok : s.ok = allOK)
    (hdd : domain_d < s.heap.length) (htr : s.trace = []) :
    ∃ out T,
      (copyDomainDevice G domain_d s).1 = some s.host.length ∧
      (copyDomainDevice G domain_d s).2.trace =
        T ++ [Event.copyDev domain_d (BlockVals.domains out)] ∧
      (∀ vs, Event.copyDev domain_d vs ∉ T) ∧
      domain_d ∉ allocAddrs (copyDomainDevice G domain_d s).2.trace := by
  obtain ⟨out, Δ, T, c', heq, hmir, hgood, hlb, hgall⟩ :=
    copyDomainDevice_run G domain_d s hok
  refine ⟨out, T, ?_, ?_, ?_, ?_⟩
  · rw [heq]
  · rw [heq]
    simp [htr]
  · intro vs
    exact not_copyDev_mem_of_lt T hlb hdd
  · rw [heq]
    simp only [htr, List.nil_append, allocAddrs_append]
    rw [List.mem_append]
    rintro (hc | hc)
    · exact not_mem_allocAddrs_of_lt T hlb hdd hc
    · simp [allocAddrs] at hc

/-- C10: noninterference — the mirror carries no field for the mesh's
neighbor-domain identifiers or the bulk-storage members, and the build
never reads them: two host inputs equal after erasing those fields
produce byte-identical builds (same result, same final heap, same trace,
same operation count). -/
theorem claim_C10_unmirrored_noninterference (G domain_d : Nat)
    (s : BuildState) (h2 : List MC_Domain)
    (hhost : s.host.map eraseUnmirrored = h2.map eraseUnmirrored) :
    (copyDomainDevice G domain_d (setHost s h2)).1 =
      (copyDomainDevice G domain_d s).1 ∧
    (copyDomainDevice G domain_d (setHost s h2)).2.heap =
      (copyDomainDevice G domain_d s).2.heap ∧
    (copyDomainDevice G domain_d (setHost s h2)).2.trace =
      (copyDomainDevice G domain_d s).2.trace ∧
    (copyDomainDevice G domain_d (setHost s h2)).2.counter =
      (copyDomainDevice G domain_d s).2.counter := by
  have hlen : h2.length = s.host.length := by
    have h := congrArg List.length hhost
    simpa using h.symm
  have hfe : forEachDomain G h2 = forEachDomain G s.host :=
    forEachDomain_congr G hhost.symm
  have hbody : HostIndep (forEachDomain G s.host >>= fun domain_h =>
      memcpyDev domain_d (BlockVals.domains domain_h) >>= fun _ =>
      Pure.pure s.host.length) :=
    hostIndep_bind (hostIndep_forEachDomain G s.host) fun domain_h =>
      hostIndep_bind (hostIndep_memcpyDev _ _) fun _ => hostIndep_pure _
  have e1 : copyDomainDevice G domain_d s =
      (forEachDomain G s.host >>= fun domain_h =>
        memcpyDev domain_d (BlockVals.domains domain_h) >>= fun _ =>
        Pure.pure s.host.length) s := by
    unfold copyDomainDevice
    rw [bind_run (rfl : getHostDomains s = (some s.host, s))]
  have e2 : copyDomainDevice G domain_d (setHost s h2) =
      (forEachDomain G s.host >>= fun domain_h =>
        memcpyDev domain_d (BlockVals.domains domain_h) >>= fun _ =>
        Pure.pure s.host.length) (setHost s h2) := by
    unfold copyDomainDevice
    rw [bind_run
      (rfl : getHostDomains (setHost s h2) = (some h2, setHost s h2))]
    simp only [setHost]
    rw [hfe, hlen]
  rw [e1, e2, hbody s h2]
  exact ⟨rfl, rfl, rfl, rfl⟩

theorem forall₂_mem_right {α β : Type} {R : α → β → Prop} {l1 : List α}
    {l2 : List β} (h : List.Forall₂ R l1 l2) {b : β} (hb : b ∈ l2) :
    ∃ a, a ∈ l1 ∧ R a b := by
  induction h with
  | nil => simp at hb
  | cons hr hrest ih =>
    rename_i x y t1 t2
    rcases List.mem_cons.mp hb with rfl | hb'
    · exact ⟨x, List.mem_cons_self x t1, hr⟩
    · obtain ⟨a, ha, hab⟩ := ih hb'
      exact ⟨a, List.mem_cons_of_mem x ha, hab⟩

theorem forall₂_imp_mem {α β : Type} {R S : α → β → Prop}
    {l1 : List α} {l2 : List β} (h : List.Forall₂ R l1 l2)
    (H : ∀ a b, a ∈ l1 → R a b → S a b) : List.Forall₂ S l1 l2 := by
  induction h with
  | nil => exact List.Forall₂.nil
  | cons hr hrest ih =>
    rename_i a b t1 t2
    exact List.Forall₂.cons (H a b (List.mem_cons_self a t1) hr)
      (ih fun x y hx hr' => H x y (List.mem_cons_of_mem a hx) hr')

/-- C2: for every non-empty (well-formed) host domain sequence, the
returned count equals the input domain count, and in every produced
descriptor every recorded length field equals the element count of the
corresponding host array — including each staged cell's `num_points`,
`num_facets` and `_size` — with every paired address a device address. -/
theorem claim_C2_counts_match_addresses_valid (G domain_d : Nat)
    (s : BuildState) (hok : s.ok = allOK)
    (hdd : domain_d < s.heap.length) (hne : s.host ≠ [])
    (hwf : WFHost G s.host) :
    (copyDomainDevice G domain_d s).1 = some s.host.length ∧
    ∃ out, readDomains (copyDomainDevice G domain_d s).2.heap
        (DPtr.dev domain_d) s.host.length = some out ∧
      List.Forall₂ (fun dom d =>
        d.cell_stateSize = dom.cell_state.length ∧
        (∃ a, d.cell_state = DPtr.dev a) ∧
        d.mesh._nbrRankSize = dom.mesh._nbrRank.length ∧
        (∃ a, d.mesh._nbrRank = DPtr.dev a) ∧
        d.mesh._nodeSize = dom.mesh._node.length ∧
        (∃ a, d.mesh._node = DPtr.dev a) ∧
        d.mesh._cellConnectivitySize =
          dom.mesh._cellConnectivity.length ∧
        (∃ a, d.mesh._cellConnectivity = DPtr.dev a) ∧
        d.mesh._cellGeometrySize = dom.mesh._cellGeometry.length ∧
        (∃ a, d.mesh._cellGeometry = DPtr.dev a) ∧
        (∃ stg, readCellStates (copyDomainDevice G domain_d s).2.heap
            d.cell_state d.cell_stateSize = some stg ∧
          ∀ e ∈ stg, ∃ a, e._total = DPtr.dev a) ∧
        (∃ stg, readConnCells (copyDomainDevice G domain_d s).2.heap
            d.mesh._cellConnectivity d.mesh._cellConnectivitySize =
              some stg ∧
          List.Forall₂ (fun c e =>
            e.num_points = c._point.length ∧
            e.num_facets = c._facet.length ∧
            (∃ a, e._point = DPtr.dev a) ∧ (∃ a, e._facet = DPtr.dev a))
            dom.mesh._cellConnectivity stg) ∧
        (∃ stg, readGeomCells (copyDomainDevice G domain_d s).2.heap
            d.mesh._cellGeometry d.mesh._cellGeometrySize = some stg ∧
          List.Forall₂ (fun c e =>
            e._size = c._facet.length ∧ (∃ a, e._facet = DPtr.dev a))
            dom.mesh._cellGeometry stg))
        s.host out := by
  obtain ⟨out, hres, hrd, hmir⟩ :=
    copyDomainDevice_readDomains G domain_d s hok hdd
  refine ⟨hres, out, hrd, ?_⟩
  refine forall₂_imp_mem hmir fun dom d hdom hm => ?_
  obtain ⟨hwf1, hwf2, hwf3⟩ := hwf dom hdom
  obtain ⟨h1, h2, h3, h4, h5, h6, h7, h8,
    ⟨stg1, ⟨a1, hna1, hp1, hg1⟩, hf1⟩,
    ⟨a2, hna2, hp2, hg2⟩, ⟨a3, hna3, hp3, hg3⟩,
    ⟨stg2, ⟨a4, hna4, hp4, hg4⟩, hf2⟩,
    ⟨stg3, ⟨a5, hna5, hp5, hg5⟩, hf3⟩⟩ := hm
  have hlen1 : stg1.length = dom.cell_state.length := hf1.length_eq.symm
  have hlen2 : stg2.length = dom.mesh._cellConnectivity.length :=
    hf2.length_eq.symm
  have hlen3 : stg3.length = dom.mesh._cellGeometry.length :=
    hf3.length_eq.symm
  refine ⟨h3, ⟨a1, hp1⟩, h5, ⟨a2, hp2⟩, h6, ⟨a3, hp3⟩, h7, ⟨a4, hp4⟩,
    h8, ⟨a5, hp5⟩, ?_, ?_, ?_⟩
  · refine ⟨stg1, ?_, ?_⟩
    · rw [hp1]
      simp [readCellStates, readBlock, hg1, h3, hlen1]
    · intro e he
      obtain ⟨c, -, hcell⟩ := forall₂_mem_right hf1 he
      obtain ⟨-, a, -, hpa, -⟩ := hcell
      exact ⟨a, hpa⟩
  · refine ⟨stg2, ?_, ?_⟩
    · rw [hp4]
      simp [readConnCells, readBlock, hg4, h7, hlen2]
    · refine forall₂_imp_mem hf2 fun c e hc hcc => ?_
      obtain ⟨hnp, hnf, ⟨ap, -, hpp, -⟩, ⟨af, -, hpf, -⟩⟩ := hcc
      obtain ⟨hwp, hwfct⟩ := hwf2 c hc
      exact ⟨by rw [hnp, hwp], by rw [hnf, hwfct], ⟨ap, hpp⟩, ⟨af, hpf⟩⟩
  · refine ⟨stg3, ?_, ?_⟩
    · rw [hp5]
      simp [readGeomCells, readBlock, hg5, h8, hlen3]
    · refine forall₂_imp_mem hf3 fun c e hc hgc => ?_
      obtain ⟨hsz, a, -, hpa, -⟩ := hgc
      have hw := hwf3 c hc
      rw [WFGeomCell] at hw
      exact ⟨by rw [hsz, hw], ⟨a, hpa⟩⟩

/-- C9: in the verification harness `test` (math_bfe.cpp lines 104-130),
both host-side result accessors are constructed over
`dpct_results_buffer`, so the pass/fail comparison compares the optimized
routine's results with themselves: for every input size and element type,
and for arbitrary buffer contents (in particular regardless of whether
the optimized results agree with the reference results in
`slow_results_buffer`), the harness counts zero failures and returns
true. -/
theorem claim_C9_harness_self_comparison {T : Type} [DecidableEq T]
    (b : BfeBuffers T) :
    bfe_test_failed b = 0 ∧ bfe_test_ret b = true := by
  have key : ∀ (l : List T),
      (List.zip l l).countP (fun p => decide (p.1 ≠ p.2)) = 0 := by
    intro l
    induction l with
    | nil => rfl
    | cons x t ih =>
      rw [List.zip_cons_cons, List.countP_cons, ih]
      simp
  have hz : bfe_test_failed b = 0 := by
    rw [bfe_test_failed, dpct_result_accessor, slow_result_accessor]
    exact key b.dpct_results_buffer
  refine ⟨hz, ?_⟩
  rw [bfe_test_ret, hz]
  rfl

/-- A concrete host input: one domain, two cells with heterogeneous
point/facet counts, two energy groups. -/
def testHost : List MC_Domain :=
  [{ domainIndex := 7, global_domain := 3,
     cell_state := [{ _total := [10, 11], rest := 5 },
                    { _total := [12, 13], rest := 6 }],
     cachedCrossSectionStorage := 42,
     mesh := { _domainGid := 9, _nbrDomainGid := [1, 2],
               _nbrRank := [4, 5, 6],
               _node := [{ x := 1, y := 2, z := 3 }],
               _cellConnectivity :=
                 [{ num_points := 2, num_facets := 3,
                    _point := [20, 21], _facet := [30, 31, 32] },
                  { num_points := 1, num_facets := 1,
                    _point := [22], _facet := [33] }],
               _cellGeometry := [{ _size := 2, _facet := [40, 41] },
                                 { _size := 1, _facet := [43] }],
               bulkStorage := 8 }}]

/-- A build state over `testHost` with an always-succeeding oracle and a
caller-allocated destination block at address 0. -/
def testState : BuildState :=
  { host := testHost, ok := allOK, heap := [none], trace := [],
    counter := 0 }

/-- The same host with different neighbor-domain identifiers and
bulk-storage contents (the fields the mirror does not carry). -/
def testHost2 : List MC_Domain :=
  [{ domainIndex := 7, global_domain := 3,
     cell_state := [{ _total := [10, 11], rest := 5 },
                    { _total := [12, 13], rest := 6 }],
     cachedCrossSectionStorage := 1000,
     mesh := { _domainGid := 9, _nbrDomainGid := [99],
               _nbrRank := [4, 5, 6],
               _node := [{ x := 1, y := 2, z := 3 }],
               _cellConnectivity :=
                 [{ num_points := 2, num_facets := 3,
                    _point := [20, 21], _facet := [30, 31, 32] },
                  { num_points := 1, num_facets := 1,
                    _point := [22], _facet := [33] }],
               _cellGeometry := [{ _size := 2, _facet := [40, 41] },
                                 { _size := 1, _facet := [43] }],
               bulkStorage := 77 }}]

/-- A second initial state over the same host: different heap and
destination, for the two-run determinism witness. -/
def testStateB : BuildState :=
  { host := testHost, ok := allOK,
    heap := [some (BlockVals.ints [1, 2, 3]), none], trace := [],
    counter := 0 }

/-- A state whose oracle fails the third checked operation. -/
def failState : BuildState :=
  { host := testHost, ok := fun n => decide (n ≠ 2), heap := [none],
    trace := [], counter := 0 }

/-- A state with an empty host domain sequence. -/
def emptyState : BuildState :=
  { host := [], ok := allOK, heap := [none], trace := [], counter := 0 }

/-- A domain with zero cells (empty cell-state, connectivity and geometry
sequences). -/
def zeroCellDom : MC_Domain :=
  { domainIndex := 0, global_domain := 1, cell_state := [],
    cachedCrossSectionStorage := 0,
    mesh := { _domainGid := 5, _nbrDomainGid := [], _nbrRank := [2],
              _node := [{ x := 1, y := 1, z := 1 }],
              _cellConnectivity := [], _cellGeometry := [],
              bulkStorage := 0 }}

/-- A state over a single zero-cell domain. -/
def zeroCellState : BuildState :=
  { host := [zeroCellDom], ok := allOK, heap := [none], trace := [],
    counter := 0 }

/-- A minimal one-domain, one-cell host for the C3 counterexample. -/
def c3Host : List MC_Domain :=
  [{ domainIndex := 1, global_domain := 2,
     cell_state := [{ _total := [5], rest := 0 }],
     cachedCrossSectionStorage := 0,
     mesh := { _domainGid := 3, _nbrDomainGid := [], _nbrRank := [4],
               _node := [{ x := 0, y := 0, z := 0 }],
               _cellConnectivity :=
                 [{ num_points := 1, num_facets := 1,
                    _point := [6], _facet := [7] }],
               _cellGeometry := [{ _size := 1, _facet := [8] }],
               bulkStorage := 0 }}]

/-- Build state for the C3 counterexample: the caller supplies the
descriptor-array buffer (block 0 of the initial device heap). -/
def c3State : BuildState :=
  { host := c3Host, ok := allOK, heap := [none], trace := [],
    counter := 0 }

/-- C3 counterexample: on a concrete one-domain input whose
target-space descriptor buffer (device block 0) is supplied by the
caller through the `domain_d` parameter, the final event of the build is
the descriptor-array transfer into that caller-supplied address 0, and
address 0 is not among the addresses the build allocated.  This refutes
the claim that the build operation itself allocates the final
descriptor-array buffer and returns that buffer's address. -/
theorem claim_C3_counterexample_caller_allocates :
    (∃ out, (copyDomainDevice 1 0 c3State).2.trace.getLast? =
      some (Event.copyDev 0 (BlockVals.domains out))) ∧
    0 ∉ allocAddrs (copyDomainDevice 1 0 c3State).2.trace := by
  obtain ⟨out, Δ, T, c', heq, hmir, hgood, hlb, hgall⟩ :=
    copyDomainDevice_run 1 0 c3State rfl
  rw [heq]
  constructor
  · exact ⟨out, by simp⟩
  · have hdd : (0 : Nat) < c3State.heap.length := by decide
    simp only [allocAddrs_append]
    rw [List.mem_append]
    rintro (hc | hc)
    · rw [List.mem_append] at hc
      rcases hc with hc | hc
      · simp [c3State, allocAddrs] at hc
      · exact not_mem_allocAddrs_of_lt T hlb hdd hc
    · simp [allocAddrs] at hc

/-- Witness for C1: the round-trip theorem applied to the concrete
two-cell heterogeneous domain. -/
theorem claim_C1_witness :
    (testState.ok = allOK ∧ 0 < testState.heap.length ∧
      WFHost 2 testState.host) ∧
    ((copyDomainDevice 2 0 testState).1 = some testState.host.length ∧
     readMirror (copyDomainDevice 2 0 testState).2.heap 2 0
       testState.host.length =
       some (testState.host.map (hostDomainView 2))) :=
  ⟨⟨rfl, by decide, by decide⟩,
   claim_C1_mirror_roundtrip_exact 2 0 testState rfl (by decide)
     (by decide)⟩

/-- Witness for C2 at the concrete input. -/
theorem claim_C2_witness :
    (testState.ok = allOK ∧ 0 < testState.heap.length ∧
      testState.host ≠ [] ∧ WFHost 2 testState.host) ∧
    ((copyDomainDevice 2 0 testState).1 = some testState.host.length ∧
     ∃ out, readDomains (copyDomainDevice 2 0 testState).2.heap
        (DPtr.dev 0) testState.host.length = some out ∧
      List.Forall₂ (fun dom d =>
        d.cell_stateSize = dom.cell_state.length ∧
        (∃ a, d.cell_state = DPtr.dev a) ∧
        d.mesh._nbrRankSize = dom.mesh._nbrRank.length ∧
        (∃ a, d.mesh._nbrRank = DPtr.dev a) ∧
        d.mesh._nodeSize = dom.mesh._node.length ∧
        (∃ a, d.mesh._node = DPtr.dev a) ∧
        d.mesh._cellConnectivitySize =
          dom.mesh._cellConnectivity.length ∧
        (∃ a, d.mesh._cellConnectivity = DPtr.dev a) ∧
        d.mesh._cellGeometrySize = dom.mesh._cellGeometry.length ∧
        (∃ a, d.mesh._cellGeometry = DPtr.dev a) ∧
        (∃ stg, readCellStates (copyDomainDevice 2 0 testState).2.heap
            d.cell_state d.cell_stateSize = some stg ∧
          ∀ e ∈ stg, ∃ a, e._total = DPtr.dev a) ∧
        (∃ stg, readConnCells (copyDomainDevice 2 0 testState).2.heap
            d.mesh._cellConnectivity d.mesh._cellConnectivitySize =
              some stg ∧
          List.Forall₂ (fun c e =>
            e.num_points = c._point.length ∧
            e.num_facets = c._facet.length ∧
            (∃ a, e._point = DPtr.dev a) ∧ (∃ a, e._facet = DPtr.dev a))
            dom.mesh._cellConnectivity stg) ∧
        (∃ stg, readGeomCells (copyDomainDevice 2 0 testState).2.heap
            d.mesh._cellGeometry d.mesh._cellGeometrySize = some stg ∧
          List.Forall₂ (fun c e =>
            e._size = c._facet.length ∧ (∃ a, e._facet = DPtr.dev a))
            dom.mesh._cellGeometry stg))
        testState.host out) :=
  ⟨⟨rfl, by decide, by decide, by decide⟩,
   claim_C2_counts_match_addresses_valid 2 0 testState rfl (by decide)
     (by decide) (by decide)⟩

/-- Witness for the amended C3 at the concrete input. -/
theorem claim_C3_witness :
    (testState.ok = allOK ∧ 0 < testState.heap.length ∧
      testState.trace = []) ∧
    (∃ out T,
      (copyDomainDevice 2 0 testState).1 = some testState.host.length ∧
      (copyDomainDevice 2 0 testState).2.trace =
        T ++ [Event.copyDev 0 (BlockVals.domains out)] ∧
      (∀ vs, Event.copyDev 0 vs ∉ T) ∧
      0 ∉ allocAddrs (copyDomainDevice 2 0 testState).2.trace) :=
  ⟨⟨rfl, by decide, rfl⟩,
   claim_C3_amended_caller_buffer 2 0 testState rfl (by decide) rfl⟩

/-- Witness for C4: the oracle fails the third checked operation; the
build aborts there with exactly two operations performed. -/
theorem claim_C4_witness :
    ((copyDomainDevice 2 0 failState).1 = none) ∧
    (failState.ok ((copyDomainDevice 2 0 failState).2.counter) = false ∧
     (∀ j, failState.counter ≤ j →
        j < (copyDomainDevice 2 0 failState).2.counter →
        failState.ok j = true) ∧
     (copyDomainDevice 2 0 failState).2.trace.length +
        failState.counter =
       failState.trace.length +
        (copyDomainDevice 2 0 failState).2.counter) :=
  ⟨by decide, claim_C4_failfast_abort 2 0 failState (by decide)⟩

/-- Witness for C5 at the concrete input. -/
theorem claim_C5_witness :
    (testState.ok = allOK ∧ testState.trace = []) ∧
    goodFrom [] (copyDomainDevice 2 0 testState).2.trace = true :=
  ⟨⟨rfl, rfl⟩, claim_C5_bottom_up_order 2 0 testState rfl rfl⟩

/-- Witness for C6: the empty host sequence completes with count 0, and
the zero-cell domain yields a descriptor with all three per-cell array
counts zero. -/
theorem claim_C6_witness :
    ((copyDomainDevice 2 0 emptyState).1 = some 0) ∧
    ((copyDomainDevice 2 0 zeroCellState).1 = some 1 ∧
     ∃ d, readDomains (copyDomainDevice 2 0 zeroCellState).2.heap
        (DPtr.dev 0) 1 = some [d] ∧
      d.cell_stateSize = 0 ∧ d.mesh._cellConnectivitySize = 0 ∧
      d.mesh._cellGeometrySize = 0) :=
  ⟨(claim_C6_degenerate_inputs 2 0 emptyState).1 rfl rfl,
   (claim_C6_degenerate_inputs 2 0 zeroCellState).2 zeroCellDom rfl
     (by decide) rfl rfl rfl rfl⟩

/-- Witness for C8: two runs over the same host from different initial
heaps and destinations read back identically. -/
theorem claim_C8_witness :
    (testState.host = testStateB.host ∧ testState.ok = allOK ∧
      testStateB.ok = allOK ∧ 0 < testState.heap.length ∧
      1 < testStateB.heap.length ∧ WFHost 2 testState.host) ∧
    (readMirror (copyDomainDevice 2 0 testState).2.heap 2 0
        testState.host.length =
      readMirror (copyDomainDevice 2 1 testStateB).2.heap 2 1
        testStateB.host.length ∧
     readMirror (copyDomainDevice 2 0 testState).2.heap 2 0
        testState.host.length =
       some (testState.host.map (hostDomainView 2))) :=
  ⟨⟨rfl, rfl, rfl, by decide, by decide, by decide⟩,
   claim_C8_two_run_determinism 2 0 1 testState testStateB rfl rfl rfl
     (by decide) (by decide) (by decide)⟩

/-- Witness for C10: changing only the neighbor-domain identifiers and
bulk-storage fields leaves the build byte-identical. -/
theorem claim_C10_witness :
    (testState.host.map eraseUnmirrored =
      testHost2.map eraseUnmirrored) ∧
    ((copyDomainDevice 2 0 (setHost testState testHost2)).1 =
       (copyDomainDevice 2 0 testState).1 ∧
     (copyDomainDevice 2 0 (setHost testState testHost2)).2.heap =
       (copyDomainDevice 2 0 testState).2.heap ∧
     (copyDomainDevice 2 0 (setHost testState testHost2)).2.trace =
       (copyDomainDevice 2 0 testState).2.trace ∧
     (copyDomainDevice 2 0 (setHost testState testHost2)).2.counter =
       (copyDomainDevice 2 0 testState).2.counter) :=
  ⟨by decide,
   claim_C10_unmirrored_noninterference 2 0 testState testHost2
     (by decide)⟩
